import Mathlib

/-!
Verification of mm/migrate.c (RPDAA pmem page-migration optimization kernel).

This file gives a shallow embedding of the migration code and proves or
refutes the spec claims about it.  Pure control flow of the C functions is
translated to Lean functions; page state (flags, reference counts, the
address-space slot array) is passed explicitly.  External collaborators that
are not part of mm/migrate.c (offload copy primitives, the destination-frame
allocator, user-memory accessors) are modelled as oracles whose success case
is constrained by the interface contract stated in the spec.
-/

namespace MigrateC

/-! Result and error constants.  MIGRATEPAGE_SUCCESS is 0; errors are
returned as negated errno values, exactly as in the C code. -/

def MIGRATEPAGE_SUCCESS : Int := 0
def EAGAIN : Int := 11
def EBUSY : Int := 16
def ENOMEM : Int := 12
def ENODEV : Int := 19
def ENOSYS : Int := 38
def EFAULT : Int := 14
def EACCES : Int := 13
def ENOENT : Int := 2

/-- Modelled from the spec: the migration mode (include/linux/migrate_mode.h is
not part of src/).  A mode is a synchronicity kind (the MIGRATE_MODE_MASK
part: asynchronous, sync-light, or fully synchronous) together with the
copy-strategy bits MIGRATE_MT (multithreaded copy), MIGRATE_DMA (offload
copy) and MIGRATE_SYNC_NO_COPY, per the spec feature list
(synchronous/asynchronous times copy-offload choice). -/
inductive SyncKind where
  | async
  | syncLight
  | sync
  deriving DecidableEq, Repr

/-- Modelled from the spec: a migrate_mode value decomposed into its mask
part and its copy-strategy bits. -/
structure MigrateMode where
  kind : SyncKind
  mt : Bool
  dma : Bool
  noCopy : Bool
  deriving DecidableEq, Repr

/-- HPAGE_PMD_NR, the number of base pages of a transparent huge page
(512 with 4KiB pages and 2MiB PMDs, the configuration this kernel targets). -/
def HPAGE_PMD_NR : Nat := 512

/-- State of a struct page as far as migrate_page_move_mapping and
migrate_huge_page_move_mapping read or write it. -/
structure Page where
  index : Nat
  mappingPtr : Option Nat
  count : Nat
  swapBacked : Bool
  swapCache : Bool
  priv : Nat
  hasPrivate : Bool
  dirty : Bool
  devicePrivate : Bool
  transHuge : Bool
  deriving DecidableEq, Repr

/-- hpage_nr_pages: number of base pages covered by the page. -/
def hpage_nr_pages (p : Page) : Nat :=
  if p.transHuge then HPAGE_PMD_NR else 1

def boolToNat (b : Bool) : Nat := if b then 1 else 0

/-- expected_page_refs from mm/migrate.c lines 420-433: one base reference,
one more for a device-private page, and, when an address space is attached,
one per base page plus one if fs-private metadata is attached. -/
def expected_page_refs (hasMapping : Bool) (page : Page) : Nat :=
  1 + boolToNat page.devicePrivate +
    (if hasMapping then hpage_nr_pages page + boolToNat page.hasPrivate else 0)

/-- Address-space slot array (the i_pages xarray), offset to page id. -/
def Slots : Type := Nat → Option Nat

/-- Store value v into count consecutive slots starting at offset start,
modelling xas_store at page_index plus the HPAGE_PMD_NR-1 tail stores for a
transparent huge page. -/
def slotsStore (s : Slots) (start count v : Nat) : Slots :=
  fun i => if start ≤ i ∧ i < start + count then some v else s i

/-- Result of the identity-swap functions: the final state of the old page,
the new page, the slot array, and the return code. -/
structure MoveMappingResult where
  old : Page
  new : Page
  slots : Slots
  rc : Int

/-- migrate_page_move_mapping from mm/migrate.c lines 443-550.  hasMapping
tells whether the mapping argument is non-NULL; oldId is the id under which
the old page is stored in the slot array, newId the id of the new page.
The model is sequential, so page_ref_freeze(page, expected_count) succeeds
exactly when page_count(page) == expected_count, which was just checked;
its failure branch therefore collapses into the count-mismatch branch.
Zone statistics updates (lines 533-546) touch no state modelled here. -/
def migrate_page_move_mapping (hasMapping : Bool) (oldId newId : Nat)
    (slots : Slots) (page newpage : Page) (extra_count : Nat) :
    MoveMappingResult :=
  let expected_count := expected_page_refs hasMapping page + extra_count
  if hasMapping = false then
    if page.count ≠ expected_count then
      ⟨page, newpage, slots, -EAGAIN⟩
    else
      let newpage := { newpage with
        index := page.index
        mappingPtr := page.mappingPtr
        swapBacked := newpage.swapBacked || page.swapBacked }
      ⟨page, newpage, slots, MIGRATEPAGE_SUCCESS⟩
  else
    if page.count ≠ expected_count ∨ slots page.index ≠ some oldId then
      ⟨page, newpage, slots, -EAGAIN⟩
    else
      let dirty := page.dirty
      let newpage := { newpage with
        index := page.index
        mappingPtr := page.mappingPtr
        count := newpage.count + hpage_nr_pages page
        swapBacked := newpage.swapBacked || page.swapBacked
        swapCache := newpage.swapCache || (page.swapBacked && page.swapCache)
        priv := if page.swapBacked && page.swapCache then page.priv else newpage.priv
        dirty := newpage.dirty || dirty }
      let slots := slotsStore slots page.index
        (if page.transHuge then HPAGE_PMD_NR else 1) newId
      let page := { page with
        dirty := false
        count := expected_count - hpage_nr_pages page }
      ⟨page, newpage, slots, MIGRATEPAGE_SUCCESS⟩

/-- migrate_huge_page_move_mapping from mm/migrate.c lines 557-587; the
expected count is 2 plus one for fs-private metadata, a single slot is
stored, and the count is unfrozen to expected_count - 1. -/
def migrate_huge_page_move_mapping (oldId newId : Nat) (slots : Slots)
    (page newpage : Page) : MoveMappingResult :=
  let expected_count := 2 + boolToNat page.hasPrivate
  if page.count ≠ expected_count ∨ slots page.index ≠ some oldId then
    ⟨page, newpage, slots, -EAGAIN⟩
  else
    let newpage := { newpage with
      index := page.index
      mappingPtr := page.mappingPtr
      count := newpage.count + 1 }
    let slots := slotsStore slots page.index 1 newId
    let page := { page with count := expected_count - 1 }
    ⟨page, newpage, slots, MIGRATEPAGE_SUCCESS⟩

/-! Batched migration engine (migrate_pages and its per-frame attempts). -/

/-- State of one frame on an engine worklist, as read by unmap_and_move,
__unmap_and_move, unmap_and_move_huge_page and the concurrent-path variants.
The rest oracle abstracts the tail of __unmap_and_move after the lock and
writeback checks (anon_vma pinning, newpage trylock, unmap, move_to_new_page
and remap), giving the return code of that tail at a given pass number. -/
structure WPage where
  isHuge : Bool
  hugeSupported : Bool
  newPageOk : Bool
  count1 : Bool
  trylockOk : Bool
  pfMemalloc : Bool
  writeback : Bool
  hasMapping : Bool
  mappingPtrNull : Bool
  hasPrivate : Bool
  trylockNewOk : Bool
  countIs1AtMove : Bool
  rest : Nat → Int

/-- Prefix of __unmap_and_move, mm/migrate.c lines 1093-1259: the page-lock
attempt (with the force / async / PF_MEMALLOC bailouts, rc staying at its
initial -EAGAIN) and the writeback check, which yields -EBUSY in any mode
whose mask part is not MIGRATE_SYNC, -EAGAIN when sync but not forced, and
otherwise waits and proceeds into the tail modelled by the rest oracle. -/
def __unmap_and_move (p : WPage) (force : Bool) (m : MigrateMode) (pass : Nat) : Int :=
  if p.trylockOk = false ∧ (force = false ∨ m.kind = SyncKind.async) then -EAGAIN
  else if p.trylockOk = false ∧ p.pfMemalloc = true then -EAGAIN
  else if p.writeback = true ∧ m.kind ≠ SyncKind.sync then -EBUSY
  else if p.writeback = true ∧ force = false then -EAGAIN
  else p.rest pass

/-- unmap_and_move, mm/migrate.c lines 1276-1423.  The second component
records whether a transfer attempt (__unmap_and_move) was made: a page whose
reference count is already 1 is done without any transfer work, and a failed
destination allocation returns -ENOMEM before any transfer.  The
thp_migration_supported early -ENOMEM is dead here since this kernel is
configured with THP migration; the THP split path of the caller is outside
the model (see migratePass). -/
def unmap_and_move (p : WPage) (force : Bool) (m : MigrateMode) (pass : Nat) :
    Int × Bool :=
  if p.count1 = true then (MIGRATEPAGE_SUCCESS, false)
  else if p.newPageOk = false then (-ENOMEM, false)
  else (__unmap_and_move p force m pass, true)

/-- unmap_and_move_huge_page, mm/migrate.c lines 1443-1532: unsupported
hugepage sizes give -ENOSYS (after putback), a failed destination
allocation -ENOMEM, a failed non-forced or non-fully-synchronous lock
attempt the initial -EAGAIN, and the rest oracle abstracts the tail. -/
def unmap_and_move_huge_page (p : WPage) (force : Bool) (m : MigrateMode)
    (pass : Nat) : Int × Bool :=
  if p.hugeSupported = false then (-ENOSYS, false)
  else if p.newPageOk = false then (-ENOMEM, false)
  else if p.trylockOk = false ∧ (force = false ∨ m.kind ≠ SyncKind.sync) then
    (-EAGAIN, false)
  else (p.rest pass, true)

/-- Dispatch of one attempt inside the migrate_pages worklist walk,
mm/migrate.c lines 2206-2213: PageHuge pages go to
unmap_and_move_huge_page, everything else to unmap_and_move. -/
def serialAttempt (p : WPage) (force : Bool) (m : MigrateMode) (pass : Nat) :
    Int × Bool :=
  if p.isHuge = true then unmap_and_move_huge_page p force m pass
  else unmap_and_move p force m pass

/-- Outcome of one pass of the migrate_pages worklist walk. -/
structure PassOut where
  remaining : List WPage
  retry : Nat
  failed : Nat
  succeeded : Nat
  transfers : Nat
  aborted : Bool

/-- One pass of migrate_pages over the worklist, mm/migrate.c lines
2202-2263: -EAGAIN keeps the page on the list and bumps retry; success and
permanent failures remove it (list_del or putback); -ENOMEM counts the page
failed and aborts the walk (goto out) with the rest of the list untouched.
The THP split-and-requeue sub-branch of the -ENOMEM case is outside the
model: the worklists considered here carry no splittable THP. -/
def migratePass (m : MigrateMode) (pass : Nat) : List WPage → PassOut
  | [] => ⟨[], 0, 0, 0, 0, false⟩
  | p :: ps =>
    if (serialAttempt p (decide (pass > 2)) m pass).1 = -ENOMEM then
      ⟨p :: ps, 0, 1, 0,
       boolToNat (serialAttempt p (decide (pass > 2)) m pass).2, true⟩
    else if (serialAttempt p (decide (pass > 2)) m pass).1 = -EAGAIN then
      let o := migratePass m pass ps
      { o with remaining := p :: o.remaining, retry := o.retry + 1,
               transfers := o.transfers +
                 boolToNat (serialAttempt p (decide (pass > 2)) m pass).2 }
    else if (serialAttempt p (decide (pass > 2)) m pass).1 = MIGRATEPAGE_SUCCESS then
      let o := migratePass m pass ps
      { o with succeeded := o.succeeded + 1,
               transfers := o.transfers +
                 boolToNat (serialAttempt p (decide (pass > 2)) m pass).2 }
    else
      let o := migratePass m pass ps
      { o with failed := o.failed + 1,
               transfers := o.transfers +
                 boolToNat (serialAttempt p (decide (pass > 2)) m pass).2 }

/-- Aggregate outcome of a migrate_pages run. -/
structure EngineOut where
  rc : Int
  failed : Nat
  succeeded : Nat
  passes : Nat
  remaining : List WPage
  transfers : Nat
  aborted : Bool

/-- Pass loop of migrate_pages, mm/migrate.c lines 2199-2266: up to 10
passes while the previous pass reported retries; on normal exit the pages
still retrying are added to nr_failed and the failure count is returned; on
the -ENOMEM abort the function returns rc = -ENOMEM itself (the documented
error-code return), skipping the nr_failed += retry accounting. -/
def migratePagesLoop (m : MigrateMode) : Nat → Nat → List WPage →
    Nat → Nat → Nat → Nat → EngineOut
  | 0, pass, pages, failed, succeeded, transfers, lastRetry =>
    ⟨Int.ofNat (failed + lastRetry), failed + lastRetry, succeeded, pass,
     pages, transfers, false⟩
  | fuel + 1, pass, pages, failed, succeeded, transfers, lastRetry =>
    if lastRetry = 0 then
      ⟨Int.ofNat (failed + lastRetry), failed + lastRetry, succeeded, pass,
       pages, transfers, false⟩
    else
      let o := migratePass m pass pages
      if o.aborted = true then
        ⟨-ENOMEM, failed + o.failed, succeeded + o.succeeded, pass + 1,
         o.remaining, transfers + o.transfers, true⟩
      else
        migratePagesLoop m fuel (pass + 1) o.remaining (failed + o.failed)
          (succeeded + o.succeeded) (transfers + o.transfers) o.retry

/-- migrate_pages, mm/migrate.c lines 2180-2285, on a worklist. -/
def migratePages (m : MigrateMode) (pages : List WPage) : EngineOut :=
  migratePagesLoop m 10 0 pages 0 0 0 1

/-! Concurrent batched engine (migrate_pages_concur). -/

/-- Prefix of __unmap_page_concur, mm/migrate.c lines 1534-1678: rc starts
at -EAGAIN; a failed lock attempt in async or unforced mode, a failed
newpage trylock, or the mapping-less orphan page with fs-private metadata
all leave it there; the writeback branch is compiled out (dead code under
an if 0) and non-LRU movable pages never reach this path, so the only other
outcome is MIGRATEPAGE_SUCCESS with migration ptes established. -/
def __unmap_page_concur (p : WPage) (force : Bool) (m : MigrateMode) : Int :=
  if p.trylockOk = false ∧ (force = false ∨ m.kind = SyncKind.async) then -EAGAIN
  else if p.trylockOk = false ∧ p.pfMemalloc = true then -EAGAIN
  else if p.trylockNewOk = false then -EAGAIN
  else if p.mappingPtrNull = true ∧ p.hasPrivate = true then -EAGAIN
  else MIGRATEPAGE_SUCCESS

/-- How one work item fares in the single concurrent pass. -/
inductive ConcurOutcome where
  | serializedHuge
  | serializedMapped
  | nomem
  | notReached
  | freed
  | again
  | unmappedCommitted
  | unmappedBounced
  deriving DecidableEq, Repr

/-- Step result of unmap_pages_and_get_new_concur, mm/migrate.c lines
1680-1802: allocation failure (-ENOMEM, page left on the input list), a
page freed under us (success with list_del of the old page), -EAGAIN
(kept), or successfully unmapped onto the unmapped list. -/
def unmap_pages_and_get_new_concur (p : WPage) (force : Bool)
    (m : MigrateMode) : ConcurOutcome :=
  if p.newPageOk = false then ConcurOutcome.nomem
  else if p.count1 = true then ConcurOutcome.freed
  else if __unmap_page_concur p force m = MIGRATEPAGE_SUCCESS then
    (if p.countIs1AtMove = true then ConcurOutcome.unmappedCommitted
     else ConcurOutcome.unmappedBounced)
  else ConcurOutcome.again

/-- Item classification of the one concurrent pass, mm/migrate.c lines
2051-2103: hugetlb pages and pages with an address-space mapping are routed
to the serialized list with -ENODEV before any batched attempt; everything
else is attempted with force = (pass > 2) = false.  An -ENOMEM attempt
leaves the walk (goto out) with the remaining items unprocessed; the stale
PageTransHuge(page) test guarding that goto reads the dangling iterator of
an earlier loop in the source and is collapsed into the plain abort here
(it is unreachable in every theorem below, which assume allocation
succeeds).  The unmappedCommitted / unmappedBounced distinction records
whether move_mapping_concurr (lines 1804-1847) later finds the unmapped
page at reference count 1 and commits it, or bounces it back to the work
list.  The second component reports whether the walk aborted. -/
def concurOutcomes (m : MigrateMode) : List WPage →
    List (WPage × ConcurOutcome) × Bool
  | [] => ([], false)
  | p :: ps =>
    if p.isHuge = true then
      let o := concurOutcomes m ps
      ((p, ConcurOutcome.serializedHuge) :: o.1, o.2)
    else if p.hasMapping = true then
      let o := concurOutcomes m ps
      ((p, ConcurOutcome.serializedMapped) :: o.1, o.2)
    else
      let step := unmap_pages_and_get_new_concur p false m
      if step = ConcurOutcome.nomem then
        ((p, ConcurOutcome.nomem) :: ps.map (fun q => (q, ConcurOutcome.notReached)),
         true)
      else
        let o := concurOutcomes m ps
        ((p, step) :: o.1, o.2)

/-- Whether an item with the given outcome is still on the input list when
the single pass (classification plus the move-mapping, batched-copy and
remap stages) has finished: only pages freed under us (list_del in
unmap_pages_and_get_new_concur) and pages committed through the staged
pipeline (list_del in remove_migration_ptes_concurr, lines 1929-1985) have
left the list; serialized, retrying, bounced and unprocessed pages stay. -/
def keepsOnFrom : ConcurOutcome → Bool
  | ConcurOutcome.freed => false
  | ConcurOutcome.unmappedCommitted => false
  | _ => true

/-- Whether the outcome involved a batched-path attempt on the item. -/
def concurAttempted : ConcurOutcome → Bool
  | ConcurOutcome.serializedHuge => false
  | ConcurOutcome.serializedMapped => false
  | ConcurOutcome.notReached => false
  | _ => true

/-- Aggregate outcome of migrate_pages_concur. -/
structure ConcurOut where
  rc : Int
  nrFailed : Nat
  nrSucceeded : Nat
  passes : Nat
  fromAfter : List WPage
  attempted : List WPage
  serialized : List WPage

/-- Pages still on the input list when the single concurrent pass has
finished. -/
def concurFromAfter (m : MigrateMode) (items : List WPage) : List WPage :=
  ((concurOutcomes m items).1.filter (fun x => keepsOnFrom x.2 = true)).map
    (fun x => x.1)

/-- Pages on which the single concurrent pass made a batched attempt. -/
def concurAttemptedList (m : MigrateMode) (items : List WPage) : List WPage :=
  ((concurOutcomes m items).1.filter (fun x => concurAttempted x.2 = true)).map
    (fun x => x.1)

/-- Pages the single concurrent pass moved to the serialized list. -/
def concurSerializedList (m : MigrateMode) (items : List WPage) : List WPage :=
  ((concurOutcomes m items).1.filter (fun x =>
    decide (x.2 = ConcurOutcome.serializedHuge ∨
      x.2 = ConcurOutcome.serializedMapped))).map (fun x => x.1)

/-- The nr_succeeded counter of the single concurrent pass (items moved to
the unmapped list). -/
def concurSucceeded (m : MigrateMode) (items : List WPage) : Nat :=
  ((concurOutcomes m items).1.filter (fun x =>
    decide (x.2 = ConcurOutcome.unmappedCommitted ∨
      x.2 = ConcurOutcome.unmappedBounced))).length

/-- The retry counter of the single concurrent pass, added to nr_failed
after the loop. -/
def concurRetry (m : MigrateMode) (items : List WPage) : Nat :=
  ((concurOutcomes m items).1.filter (fun x =>
    decide (x.2 = ConcurOutcome.again))).length

/-- migrate_pages_concur, mm/migrate.c lines 1987-2157: the outer loop
bound is pass < 1 with retry initialized to 1, so exactly one pass of the
staged pipeline runs; afterwards nr_failed += retry, rc := nr_failed, and
whenever the input list is non-empty the whole remainder is handed to the
serial migrate_pages engine whose return value replaces rc. -/
def migrate_pages_concur (m : MigrateMode) (items : List WPage) : ConcurOut :=
  ⟨if (concurFromAfter m items).isEmpty = true then Int.ofNat (concurRetry m items)
   else (migratePages m (concurFromAfter m items)).rc,
   concurRetry m items, concurSucceeded m items, 1,
   concurFromAfter m items, concurAttemptedList m items,
   concurSerializedList m items⟩

/-! Bulk relocation entry point (do_pages_move). -/

/-- One request of a move_pages batch as do_pages_move reads it: whether
the two get_user fetches of the page pointer and the node succeed, the
requested destination node, whether that node has memory and is in the
task nodemask, and the result of add_page_for_migration for the address
(0 already at destination, positive queued, negative a lookup or isolation
error). -/
structure MoveReq where
  readOk : Bool
  node : Int
  nodeHasMemory : Bool
  nodeAllowed : Bool
  addPage : Int
  deriving DecidableEq, Repr

/-- MAX_NUMNODES for the configuration this kernel targets. -/
def MAX_NUMNODES : Nat := 1024

/-- Final state of a do_pages_move run: the return value, the user status
array (none where never written), and how many requests the loop examined. -/
structure PagesMoveOut where
  ret : Int
  status : Nat → Option Int
  processed : Nat

/-- store_status over a half-open index range, mm/migrate.c lines
2289-2298, with the user-memory writes taken to succeed. -/
def storeRange (st : Nat → Option Int) (start stop : Nat) (v : Int) :
    Nat → Option Int :=
  fun j => if start ≤ j ∧ j < stop then some v else st j

/-- Tail of do_pages_move at out_flush, mm/migrate.c lines 2629-2668: if
the pagelist is empty return err as is; otherwise flush the pending run
through do_move_pages_to_node (the moveRes oracle over the queued request
indices), on its success store current_node over the pending range, and
return the flush result unless err was already negative. -/
def flushTail (moveRes : List Nat → Int) (st : Nat → Option Int)
    (start i : Nat) (cur : Option Int) (plist : List Nat) (err : Int)
    (processed : Nat) : PagesMoveOut :=
  if plist.isEmpty = true then ⟨err, st, processed⟩
  else
    let err1 := moveRes plist
    let st2 := if err1 = 0 then
        (match cur with
         | some c => storeRange st start i c
         | none => st)
      else st
    ⟨if err ≥ 0 then err1 else err, st2, processed⟩

/-- Main loop of do_pages_move, mm/migrate.c lines 2502-2628.  Failed
get_user fetches (-EFAULT), an out-of-range or memoryless destination node
(-ENODEV) and a node outside the task nodemask (-EACCES) abort through
out_flush; a destination-node change flushes the pending run first, a
nonzero flush result returning directly (goto out) with the positive case
topped up by the never-attempted remainder; a negative
add_page_for_migration result is stored into that slot and flushes the run
likewise; queued and already-at-destination addresses continue the run. -/
def doPagesMoveLoop (moveRes : List Nat → Int) (n : Nat) :
    List MoveReq → Nat → Option Int → Nat → List Nat →
    (Nat → Option Int) → Int → PagesMoveOut
  | [], i, cur, _start, plist, st, err =>
    flushTail moveRes st _start i cur plist err n
  | r :: rs, i, cur, start, plist, st, _err =>
    if r.readOk = false then
      flushTail moveRes st start i cur plist (-EFAULT) (i + 1)
    else if r.node < 0 ∨ (MAX_NUMNODES : Int) ≤ r.node ∨ r.nodeHasMemory = false then
      flushTail moveRes st start i cur plist (-ENODEV) (i + 1)
    else if r.nodeAllowed = false then
      flushTail moveRes st start i cur plist (-EACCES) (i + 1)
    else
      let nodeChanged := match cur with
        | some c => decide (r.node ≠ c)
        | none => false
      let errm := if nodeChanged = true ∧ plist.isEmpty = false then moveRes plist
                  else 0
      if nodeChanged = true ∧ errm ≠ 0 then
        ⟨if errm > 0 then errm + (Int.ofNat n - Int.ofNat i - 1) else errm,
         st, i + 1⟩
      else
        let st := if nodeChanged = true then storeRange st start i (cur.getD 0)
                  else st
        let plist := if nodeChanged = true then [] else plist
        let stArg := match cur with
          | none => (r.node, i)
          | some c => if r.node ≠ c then (r.node, i) else (c, start)
        let curN := stArg.1
        let start := stArg.2
        if r.addPage = 0 then
          doPagesMoveLoop moveRes n rs (i + 1) (some curN) start plist
            (storeRange st i (i + 1) curN) 0
        else if 0 < r.addPage then
          doPagesMoveLoop moveRes n rs (i + 1) (some curN) start
            (plist ++ [i]) st r.addPage
        else
          let st := storeRange st i (i + 1) r.addPage
          let errm2 := if plist.isEmpty = true then 0 else moveRes plist
          if errm2 ≠ 0 then
            ⟨if errm2 > 0 then errm2 + (Int.ofNat n - Int.ofNat i - 1) else errm2,
             st, i + 1⟩
          else
            let st := if start < i then storeRange st start i curN else st
            doPagesMoveLoop moveRes n rs (i + 1) none start [] st 0

/-- do_pages_move on a request batch, starting with no current node, an
empty pagelist and an untouched status array. -/
def do_pages_move (moveRes : List Nat → Int) (reqs : List MoveReq) :
    PagesMoveOut :=
  doPagesMoveLoop moveRes reqs.length reqs 0 none 0 [] (fun _ => none) 0

/-! Content transfer (copy_huge_page, __copy_gigantic_page,
migrate_page_copy) with the offload primitives as oracles. -/

/-- Modelled from the spec: the external offload copy primitives
copy_page_multithread, copy_page_dma (not part of src/).  Each returns a
status code; per the Content Transfer contract a zero status means all
requested members were copied, and a nonzero status leaves the destination
unspecified, modelled by the junk fields.  dmaRc1 and dmaJunk1 give the
per-member results used by the one-page calls of __copy_gigantic_page. -/
structure CopyOracle where
  mtRc : Int
  mtJunk : Nat → Nat
  dmaRc : Int
  dmaJunk : Nat → Nat
  dmaRc1 : Nat → Int
  dmaJunk1 : Nat → Nat

/-- Modelled from the spec: copy_page_multithread over nr members. -/
def copy_page_multithread (o : CopyOracle) (dst src : Nat → Nat) (nr : Nat) :
    Int × (Nat → Nat) :=
  if o.mtRc = 0 then (0, fun i => if i < nr then src i else dst i)
  else (o.mtRc, o.mtJunk)

/-- Modelled from the spec: copy_page_dma over nr members. -/
def copy_page_dma (o : CopyOracle) (dst src : Nat → Nat) (nr : Nat) :
    Int × (Nat → Nat) :=
  if o.dmaRc = 0 then (0, fun i => if i < nr then src i else dst i)
  else (o.dmaRc, o.dmaJunk)

/-- Modelled from the spec: copy_page_dma on the single member i. -/
def copy_page_dma_one (o : CopyOracle) (_dst src : Nat → Nat) (i : Nat) :
    Int × Nat :=
  if o.dmaRc1 i = 0 then (0, src i) else (o.dmaRc1 i, o.dmaJunk1 i)

/-- copy_highpage: the plain sequential copy of one member. -/
def copy_highpage (src : Nat → Nat) (i : Nat) : Nat := src i

/-- Member loop of __copy_gigantic_page, mm/migrate.c lines 594-615: for
each member, try the DMA single-page copy when the mode carries the DMA
bit (otherwise rc keeps its initial -EFAULT), and fall back to
copy_highpage for that member whenever rc is nonzero. -/
def gigLoop (o : CopyOracle) (useDma : Bool) (src : Nat → Nat) :
    Nat → Nat → (Nat → Nat) → (Nat → Nat)
  | 0, _, dst => dst
  | k + 1, i, dst =>
    let r := if useDma = true then copy_page_dma_one o dst src i
             else (-EFAULT, dst i)
    let v := if r.1 ≠ 0 then copy_highpage src i else r.2
    let dst2 := fun j => if j = i then v else dst j
    gigLoop o useDma src k (i + 1) dst2

/-- __copy_gigantic_page over nr members. -/
def __copy_gigantic_page (o : CopyOracle) (m : MigrateMode)
    (dst src : Nat → Nat) (nr : Nat) : Nat → Nat :=
  gigLoop o m.dma src nr 0 dst

/-- MAX_ORDER_NR_PAGES for the configuration this kernel targets. -/
def MAX_ORDER_NR_PAGES : Nat := 1024

/-- Plain sequential fallback loop over all nr members. -/
def seqCopy (dst src : Nat → Nat) (nr : Nat) : Nat → Nat :=
  fun i => if i < nr then copy_highpage src i else dst i

/-- Which copy strategy a huge or base content transfer went through. -/
structure CopyTrace where
  giganticPath : Bool
  forcedMT : Bool
  mtAttempted : Bool
  dmaAttempted : Bool
  fallbackUsed : Bool
  deriving DecidableEq, Repr

/-- copy_huge_page, mm/migrate.c lines 617-658: gigantic hugetlbfs pages
(more members than MAX_ORDER_NR_PAGES) take the early __copy_gigantic_page
path before any acceleration logic; otherwise the mode is forced to carry
MIGRATE_MT whenever the global accel_page_copy is nonzero or the RPDAA
sysctl equals 1, then the multithreaded copy is tried first, else the DMA
copy, else rc keeps -EFAULT, and any nonzero rc runs the sequential
per-member fallback loop.  For the gigantic path the trace's fallbackUsed
records the no-DMA case, in which every member goes through copy_highpage. -/
def copy_huge_page (accel sysctl : Int) (o : CopyOracle) (m : MigrateMode)
    (dst src : Nat → Nat) (isHugetlb : Bool) (nr : Nat) :
    (Nat → Nat) × CopyTrace :=
  if isHugetlb = true ∧ MAX_ORDER_NR_PAGES < nr then
    (__copy_gigantic_page o m dst src nr,
     ⟨true, false, false, m.dma, m.dma = false⟩)
  else
    let m2 := if accel ≠ 0 ∨ sysctl = 1 then { m with mt := true } else m
    let r := if m2.mt = true then copy_page_multithread o dst src nr
             else if m2.dma = true then copy_page_dma o dst src nr
             else (-EFAULT, dst)
    let final := if r.1 ≠ 0 then seqCopy r.2 src nr else r.2
    (final,
     ⟨false, decide (accel ≠ 0 ∨ sysctl = 1), m2.mt,
      m2.mt = false ∧ m2.dma = true, r.1 ≠ 0⟩)

/-- migrate_page_copy, mm/migrate.c lines 724-743: huge and THP pages
delegate to copy_huge_page; a base page tries DMA first if the mode asks
for it, else the multithreaded copy if asked, else rc keeps -EFAULT, with
copy_highpage as the fallback whenever rc is nonzero.  The flag transfer
of migrate_page_states touches no content modelled here. -/
def migrate_page_copy (accel sysctl : Int) (o : CopyOracle) (m : MigrateMode)
    (dst src : Nat → Nat) (hugeOrThp : Bool) (isHugetlb : Bool) (nr : Nat) :
    (Nat → Nat) × CopyTrace :=
  if hugeOrThp = true then copy_huge_page accel sysctl o m dst src isHugetlb nr
  else
    let r := if m.dma = true then copy_page_dma o dst src 1
             else if m.mt = true then copy_page_multithread o dst src 1
             else (-EFAULT, dst)
    let final := if r.1 ≠ 0 then seqCopy r.2 src 1 else r.2
    (final, ⟨false, false, m.dma = false ∧ m.mt = true, m.dma, r.1 ≠ 0⟩)

/-! Device-memory migration session (migrate_vma_check_page and
migrate_vma_prepare). -/

/-- State of a page backing one unit of a device-memory migration session,
as read by migrate_vma_prepare: compound role, ZONE_DEVICE kind, mapping
and fs-private metadata presence, reference and map counts, and the
outcomes of the non-blocking lock and LRU isolation attempts. -/
structure VPage where
  isCompound : Bool
  zoneDevice : Bool
  devicePrivate : Bool
  hasMapping : Bool
  hasPrivate : Bool
  count : Nat
  mapcount : Nat
  trylockOk : Bool
  isolateOk : Bool
  deriving DecidableEq, Repr

/-- migrate_vma_check_page, mm/migrate.c lines 3381-3424: compound pages
are never migratable; ZONE_DEVICE pages are migratable exactly when
device-private; otherwise the page is migratable when its reference count
minus the expected extras (the caller's pin, plus mapping and fs-private
references for file-backed pages) does not exceed its map count. -/
def migrate_vma_check_page (p : VPage) : Bool :=
  if p.isCompound = true then false
  else if p.zoneDevice = true then p.devicePrivate
  else
    let extra : Int := 1 + (if p.hasMapping then 1 + (if p.hasPrivate then 1 else 0) else 0)
    decide ((p.count : Int) - extra ≤ (p.mapcount : Int))

/-- One slot of the session's src array: the backing page if any (none for
holes and cleared slots), the MIGRATE_PFN_LOCKED bit and the
MIGRATE_PFN_MIGRATE (eligible) bit. -/
structure SrcEntry where
  page : Option VPage
  locked : Bool
  migrate : Bool
  deriving DecidableEq, Repr

/-- Cleared src slot (src[i] = 0). -/
def zeroEntry : SrcEntry := ⟨none, false, false⟩

/-- Main loop of migrate_vma_prepare, mm/migrate.c lines 3444-3517, over
the src slots with the collected-pages counter and the restore counter:
slots without a page are skipped; a failed non-blocking lock clears the
slot and drops a collected page; a failed LRU isolation or a failed
migrate_vma_check_page re-validation unwinds the unit, clearing the
eligible bit (keeping the slot for the restore loop) when the page was
already locked by the caller, or clearing the whole slot otherwise, and
drops a collected page either way; the walk stops when the collected
counter reaches zero. -/
def prepLoop : List SrcEntry → Nat → Nat → List SrcEntry × Nat × Nat
  | [], cpages, restore => ([], cpages, restore)
  | e :: es, cpages, restore =>
    if cpages = 0 then (e :: es, cpages, restore)
    else
      match e.page with
      | none =>
        let o := prepLoop es cpages restore
        (e :: o.1, o.2)
      | some p =>
        if e.locked = false ∧ p.trylockOk = false then
          let o := prepLoop es (cpages - 1) restore
          (zeroEntry :: o.1, o.2)
        else
          let remap := e.locked
          let e2 : SrcEntry := { e with locked := true }
          if p.zoneDevice = false ∧ p.isolateOk = false then
            if remap = true then
              let o := prepLoop es (cpages - 1) (restore + 1)
              ({ e2 with migrate := false } :: o.1, o.2)
            else
              let o := prepLoop es (cpages - 1) restore
              (zeroEntry :: o.1, o.2)
          else
            if migrate_vma_check_page p = false then
              if remap = true then
                let o := prepLoop es (cpages - 1) (restore + 1)
                ({ e2 with migrate := false } :: o.1, o.2)
              else
                let o := prepLoop es (cpages - 1) restore
                (zeroEntry :: o.1, o.2)
            else
              let o := prepLoop es cpages restore
              (e2 :: o.1, o.2)

/-- Restore loop of migrate_vma_prepare, mm/migrate.c lines 3519-3531:
while the restore counter is nonzero, every slot holding a page with the
eligible bit cleared has its mapping restored and the slot cleared. -/
def restoreLoop : List SrcEntry → Nat → List SrcEntry
  | [], _ => []
  | e :: es, restore =>
    if restore = 0 then e :: es
    else
      match e.page with
      | none => e :: restoreLoop es restore
      | some _ =>
        if e.migrate = true then e :: restoreLoop es restore
        else zeroEntry :: restoreLoop es (restore - 1)

/-- migrate_vma_prepare on the src array and the collected counter,
returning the final array and counter. -/
def migrate_vma_prepare (src : List SrcEntry) (cpages : Nat) :
    List SrcEntry × Nat :=
  let o := prepLoop src cpages 0
  (restoreLoop o.1 o.2.2, o.2.1)

/-- Number of src slots holding a page. -/
def validCount (src : List SrcEntry) : Nat :=
  (src.filter (fun e => e.page.isSome = true)).length

/-- Number of src slots holding a compound page. -/
def compoundCount (src : List SrcEntry) : Nat :=
  (src.filter (fun e =>
    match e.page with
    | some p => p.isCompound = true
    | none => false)).length

/-- Number of src slots holding a page whose eligible bit was cleared (the
units the restore loop still has to put back). -/
def demotedCount (src : List SrcEntry) : Nat :=
  (src.filter (fun e => e.page.isSome && !e.migrate)).length

/-! Concrete fixtures used by the witness and counterexample theorems. -/

/-- Empty slot array. -/
def slots0 : Slots := fun _ => none

/-- Anonymous page with reference count 1 and no extras. -/
def anonPage : Page := ⟨4, some 5, 1, true, false, 0, false, false, false, false⟩

/-- Anonymous page with an elevated reference count. -/
def anonPageBusy : Page := ⟨4, some 5, 3, false, false, 0, false, false, false, false⟩

/-- Freshly allocated destination page. -/
def freshPage : Page := ⟨99, none, 1, false, false, 0, false, false, false, false⟩

/-- Mapped transparent huge page at offset 0 with exactly the expected
reference count 1 + 512. -/
def thpPage : Page := ⟨0, some 7, 513, false, false, 0, false, false, false, true⟩

/-- Mapped base page at offset 0 with exactly the expected count 2. -/
def filePage : Page := ⟨0, some 7, 2, false, false, 0, false, false, false, false⟩

/-- Mapped base page at offset 0 with an elevated count. -/
def filePageBusy : Page := ⟨0, some 7, 5, false, false, 0, false, false, false, false⟩

/-- Hugetlbfs page at offset 0 with exactly the expected count 2. -/
def hugetlbPage : Page := ⟨0, some 7, 2, false, false, 0, false, false, false, false⟩

/-- Slot array storing page id 1 in the 512 member offsets of a THP at
offset 0. -/
def slotsThp : Slots := fun i => if i < HPAGE_PMD_NR then some 1 else none

/-- Slot array storing page id 1 at offset 0. -/
def slotsOne : Slots := fun i => if i = 0 then some 1 else none

/-- A worklist page whose attempts can never produce -ENOMEM: its
destination allocation succeeds and the abstract tail of the per-frame
move never reports -ENOMEM either. -/
def noENOMEM (p : WPage) : Prop :=
  p.newPageOk = true ∧ ∀ k, p.rest k ≠ -ENOMEM

/-- Fully synchronous mode with no copy-strategy bits. -/
def syncMode : MigrateMode := ⟨SyncKind.sync, false, false, false⟩

/-- Asynchronous mode with no copy-strategy bits. -/
def asyncMode : MigrateMode := ⟨SyncKind.async, false, false, false⟩

/-- Worklist page in its easiest state: base page, lockable, allocatable,
with the abstract tail succeeding at every pass. -/
def plainItem : WPage :=
  ⟨false, true, true, false, true, false, false, false, false, false, true,
   true, fun _ => MIGRATEPAGE_SUCCESS⟩

/-- Worklist page whose destination allocation fails. -/
def enomemItem : WPage := { plainItem with newPageOk := false }

/-- Worklist page under active writeback. -/
def wbItem : WPage := { plainItem with writeback := true }

/-- Worklist page already freed (reference count 1). -/
def count1Item : WPage := { plainItem with count1 := true }

/-- Hugetlbfs worklist page. -/
def hugeItem : WPage := { plainItem with isHuge := true }

/-- File-backed worklist page with an address-space mapping. -/
def mappedItem : WPage := { plainItem with hasMapping := true }

/-- Worklist page whose abstract tail always reports -EAGAIN. -/
def eagainItem : WPage := { plainItem with rest := fun _ => -EAGAIN }

/-- Move request naming an out-of-range destination node. -/
def badNodeReq : MoveReq := ⟨true, -1, true, true, 0⟩

/-- Move request whose address fails page lookup with -EFAULT. -/
def lookupErrReq : MoveReq := ⟨true, 0, true, true, -EFAULT⟩

/-- Well-formed move request whose address is queued for migration. -/
def goodReq : MoveReq := ⟨true, 0, true, true, 1⟩

/-- Migration oracle under which every flush fully succeeds. -/
def moveRes0 : List Nat → Int := fun _ => 0

/-- Source content for the copy fixtures. -/
def srcContent : Nat → Nat := fun i => i + 100

/-- Blank destination content for the copy fixtures. -/
def dstContent : Nat → Nat := fun _ => 0

/-- Copy oracle whose offload primitives all succeed. -/
def oracleAllOk : CopyOracle := ⟨0, fun _ => 7, 0, fun _ => 7, fun _ => 0, fun _ => 7⟩

/-- Copy oracle whose offload primitives all fail with -EFAULT, leaving
junk behind. -/
def oracleAllFail : CopyOracle :=
  ⟨-EFAULT, fun _ => 7, -EFAULT, fun _ => 7, fun _ => -EFAULT, fun _ => 7⟩

/-- Compound page collected into a device-migration session. -/
def compoundVPage : VPage := ⟨true, false, false, false, false, 3, 1, true, true⟩

/-- Ordinary eligible anonymous page collected into a session. -/
def normalVPage : VPage := ⟨false, false, false, false, false, 2, 1, true, true⟩

/-- Session src array holding the compound page and the normal page, both
collected with the eligible bit set. -/
def srcFix : List SrcEntry :=
  [⟨some compoundVPage, false, true⟩, ⟨some normalVPage, false, true⟩]

end MigrateC

namespace MigrateC

/-! Theorems settling the claims, with shared helper lemmas. -/

/-- C1: for a frame with no address-space mapping, the identity swap is a
plain reference-count equality check followed by an unconditional identity
copy.  When page_count equals 1, plus 1 if the page is device-private,
plus the caller's extra_count, the old page's index and mapping pointer
are copied to the new page, the swap-backed flag is transferred, and
MIGRATEPAGE_SUCCESS is returned with the old page and the slot array
untouched; when the count differs, -EAGAIN is returned with both pages
and the slot array unchanged. -/
theorem anon_identity_swap (oldId newId : Nat) (slots : Slots)
    (page newpage : Page) (extra : Nat) :
    (page.count = 1 + boolToNat page.devicePrivate + extra →
      (migrate_page_move_mapping false oldId newId slots page newpage extra).rc
        = MIGRATEPAGE_SUCCESS ∧
      (migrate_page_move_mapping false oldId newId slots page newpage extra).new.index
        = page.index ∧
      (migrate_page_move_mapping false oldId newId slots page newpage extra).new.mappingPtr
        = page.mappingPtr ∧
      (page.swapBacked = true →
        (migrate_page_move_mapping false oldId newId slots page newpage extra).new.swapBacked
          = true) ∧
      (migrate_page_move_mapping false oldId newId slots page newpage extra).old
        = page ∧
      (migrate_page_move_mapping false oldId newId slots page newpage extra).slots
        = slots) ∧
    (page.count ≠ 1 + boolToNat page.devicePrivate + extra →
      (migrate_page_move_mapping false oldId newId slots page newpage extra).rc
        = -EAGAIN ∧
      (migrate_page_move_mapping false oldId newId slots page newpage extra).old
        = page ∧
      (migrate_page_move_mapping false oldId newId slots page newpage extra).new
        = newpage ∧
      (migrate_page_move_mapping false oldId newId slots page newpage extra).slots
        = slots) := by
  have hexp : expected_page_refs false page + extra
      = 1 + boolToNat page.devicePrivate + extra := by
    simp [expected_page_refs]
  constructor
  · intro h
    simp [migrate_page_move_mapping, hexp, h]
    intro hs
    simp [hs]
  · intro h
    simp [migrate_page_move_mapping, hexp, h]

/-- C1 witness: the identity swap on a concrete anonymous page with count
1 succeeds with the identity copied, and on a concrete busy anonymous
page returns -EAGAIN unchanged. -/
theorem anon_identity_swap_witness :
    (anonPage.count = 1 + boolToNat anonPage.devicePrivate + 0 ∧
      (migrate_page_move_mapping false 1 2 slots0 anonPage freshPage 0).rc
        = MIGRATEPAGE_SUCCESS ∧
      (migrate_page_move_mapping false 1 2 slots0 anonPage freshPage 0).new.index
        = anonPage.index ∧
      (migrate_page_move_mapping false 1 2 slots0 anonPage freshPage 0).new.mappingPtr
        = anonPage.mappingPtr ∧
      (anonPage.swapBacked = true →
        (migrate_page_move_mapping false 1 2 slots0 anonPage freshPage 0).new.swapBacked
          = true) ∧
      (migrate_page_move_mapping false 1 2 slots0 anonPage freshPage 0).old
        = anonPage ∧
      (migrate_page_move_mapping false 1 2 slots0 anonPage freshPage 0).slots
        = slots0) ∧
    (anonPageBusy.count ≠ 1 + boolToNat anonPageBusy.devicePrivate + 0 ∧
      (migrate_page_move_mapping false 1 2 slots0 anonPageBusy freshPage 0).rc
        = -EAGAIN ∧
      (migrate_page_move_mapping false 1 2 slots0 anonPageBusy freshPage 0).old
        = anonPageBusy ∧
      (migrate_page_move_mapping false 1 2 slots0 anonPageBusy freshPage 0).new
        = freshPage ∧
      (migrate_page_move_mapping false 1 2 slots0 anonPageBusy freshPage 0).slots
        = slots0) := by
  refine ⟨⟨by decide, ?_⟩, ⟨by decide, ?_⟩⟩
  · exact (anon_identity_swap 1 2 slots0 anonPage freshPage 0).1 (by decide)
  · exact (anon_identity_swap 1 2 slots0 anonPageBusy freshPage 0).2 (by decide)

/-- C2 counterexample: on a mapped transparent huge page the successful
identity swap unfreezes the old count to expected minus 512, not to one
less than the expected value, refuting the claim as stated. -/
theorem unfreeze_thp_counterexample :
    (migrate_page_move_mapping true 1 2 slotsThp thpPage freshPage 0).rc
      = MIGRATEPAGE_SUCCESS ∧
    (migrate_page_move_mapping true 1 2 slotsThp thpPage freshPage 0).old.count
      ≠ expected_page_refs true thpPage + 0 - 1 := by
  constructor
  · rfl
  · decide

/-- C2 amended: after a successful identity swap of a mapped frame the old
count is unfrozen to the expected value minus hpage_nr_pages of the frame,
which is exactly one less than expected for non-compound frames, and the
hugetlbfs variant migrate_huge_page_move_mapping unfreezes to exactly one
less than its expected value. -/
theorem unfreeze_amended (oldId newId : Nat) (slots : Slots)
    (page newpage : Page) (extra : Nat) :
    ((migrate_page_move_mapping true oldId newId slots page newpage extra).rc
        = MIGRATEPAGE_SUCCESS →
      (migrate_page_move_mapping true oldId newId slots page newpage extra).old.count
        = expected_page_refs true page + extra - hpage_nr_pages page ∧
      (page.transHuge = false →
        (migrate_page_move_mapping true oldId newId slots page newpage extra).old.count
          = expected_page_refs true page + extra - 1)) ∧
    ((migrate_huge_page_move_mapping oldId newId slots page newpage).rc
        = MIGRATEPAGE_SUCCESS →
      (migrate_huge_page_move_mapping oldId newId slots page newpage).old.count
        = 2 + boolToNat page.hasPrivate - 1) := by
  constructor
  · intro h
    by_cases hc : page.count = expected_page_refs true page + extra ∧
        slots page.index = some oldId
    · constructor
      · simp [migrate_page_move_mapping, hc.1, hc.2]
      · intro ht
        simp [migrate_page_move_mapping, hc.1, hc.2, hpage_nr_pages, ht]
    · exfalso
      rw [not_and_or] at hc
      rcases hc with hc | hc
      · simp [migrate_page_move_mapping, hc] at h
        exact absurd h (by decide)
      · simp [migrate_page_move_mapping, hc] at h
        exact absurd h (by decide)
  · intro h
    by_cases hc : page.count = 2 + boolToNat page.hasPrivate ∧
        slots page.index = some oldId
    · simp [migrate_huge_page_move_mapping, hc.1, hc.2]
    · exfalso
      rw [not_and_or] at hc
      rcases hc with hc | hc
      · simp [migrate_huge_page_move_mapping, hc] at h
        exact absurd h (by decide)
      · simp [migrate_huge_page_move_mapping, hc] at h
        exact absurd h (by decide)

/-- C2 amended witness: on a concrete mapped base page the old count is
unfrozen to expected - 1, and on a concrete hugetlbfs page the huge
variant unfreezes to its expected value minus one. -/
theorem unfreeze_amended_witness :
    ((migrate_page_move_mapping true 1 2 slotsOne filePage freshPage 0).rc
        = MIGRATEPAGE_SUCCESS ∧
      (migrate_page_move_mapping true 1 2 slotsOne filePage freshPage 0).old.count
        = expected_page_refs true filePage + 0 - hpage_nr_pages filePage ∧
      (migrate_page_move_mapping true 1 2 slotsOne filePage freshPage 0).old.count
        = expected_page_refs true filePage + 0 - 1) ∧
    ((migrate_huge_page_move_mapping 1 2 slotsOne hugetlbPage freshPage).rc
        = MIGRATEPAGE_SUCCESS ∧
      (migrate_huge_page_move_mapping 1 2 slotsOne hugetlbPage freshPage).old.count
        = 2 + boolToNat hugetlbPage.hasPrivate - 1) := by
  have h1 := (unfreeze_amended 1 2 slotsOne filePage freshPage 0).1 (by decide)
  have h2 := (unfreeze_amended 1 2 slotsOne hugetlbPage freshPage 0).2 (by decide)
  exact ⟨⟨by decide, h1.1, h1.2 (by decide)⟩, ⟨by decide, h2⟩⟩

/-- C3: any mismatch during the identity swap of a mapped frame (slot
occupant different from the old frame, or reference count different from
expected, the sequential model of page_ref_freeze folding the freeze
failure into the count mismatch) returns -EAGAIN and performs no partial
swap: the slot array, the old page and the new page are all unchanged. -/
theorem mapped_swap_mismatch (oldId newId : Nat) (slots : Slots)
    (page newpage : Page) (extra : Nat)
    (h : page.count ≠ expected_page_refs true page + extra ∨
      slots page.index ≠ some oldId) :
    (migrate_page_move_mapping true oldId newId slots page newpage extra).rc
      = -EAGAIN ∧
    (migrate_page_move_mapping true oldId newId slots page newpage extra).slots
      = slots ∧
    (migrate_page_move_mapping true oldId newId slots page newpage extra).old
      = page ∧
    (migrate_page_move_mapping true oldId newId slots page newpage extra).new
      = newpage := by
  rcases h with h | h
  · simp [migrate_page_move_mapping, h]
  · simp [migrate_page_move_mapping, h]

/-- C3 witness: a concrete mapped page with an elevated reference count is
rejected with -EAGAIN and no state change. -/
theorem mapped_swap_mismatch_witness :
    (filePageBusy.count ≠ expected_page_refs true filePageBusy + 0 ∨
      slotsOne filePageBusy.index ≠ some 1) ∧
    (migrate_page_move_mapping true 1 2 slotsOne filePageBusy freshPage 0).rc
      = -EAGAIN ∧
    (migrate_page_move_mapping true 1 2 slotsOne filePageBusy freshPage 0).slots
      = slotsOne ∧
    (migrate_page_move_mapping true 1 2 slotsOne filePageBusy freshPage 0).old
      = filePageBusy ∧
    (migrate_page_move_mapping true 1 2 slotsOne filePageBusy freshPage 0).new
      = freshPage :=
  ⟨Or.inl (by decide),
   mapped_swap_mismatch 1 2 slotsOne filePageBusy freshPage 0 (Or.inl (by decide))⟩

/-- Helper: a page satisfying noENOMEM never yields -ENOMEM from an
engine attempt. -/
theorem serialAttempt_ne_enomem (p : WPage) (force : Bool) (m : MigrateMode)
    (pass : Nat) (h : noENOMEM p) :
    (serialAttempt p force m pass).1 ≠ -ENOMEM := by
  rcases h with ⟨hn, hr⟩
  simp only [serialAttempt, unmap_and_move_huge_page, unmap_and_move,
    __unmap_and_move, hn]
  split_ifs <;> first
    | decide
    | exact hr _
    | simp_all

/-- Helper: accounting of one migrate_pages pass on a worklist free of
-ENOMEM outcomes: the pass does not abort, every page lands in exactly one
of failed, succeeded or remaining, retry counts the remaining pages, and
the remaining pages are exactly those whose attempt returned -EAGAIN. -/
theorem migratePass_accounting (m : MigrateMode) (pass : Nat) :
    ∀ pages : List WPage, (∀ p ∈ pages, noENOMEM p) →
    (migratePass m pass pages).aborted = false ∧
    (migratePass m pass pages).failed + (migratePass m pass pages).succeeded +
      (migratePass m pass pages).remaining.length = pages.length ∧
    (migratePass m pass pages).retry = (migratePass m pass pages).remaining.length ∧
    (migratePass m pass pages).remaining = pages.filter
      (fun p => decide ((serialAttempt p (decide (pass > 2)) m pass).1 = -EAGAIN)) := by
  intro pages
  induction pages with
  | nil => intro _; simp [migratePass]
  | cons p ps ih =>
    intro h
    have hp : noENOMEM p := h p (by simp)
    have ihs := ih (fun q hq => h q (by simp [hq]))
    have hne := serialAttempt_ne_enomem p (decide (pass > 2)) m pass hp
    obtain ⟨ia, iacc, iretry, ifilt⟩ := ihs
    simp only [migratePass]
    split_ifs with h1 h2 h3
    · exact absurd h1 hne
    · refine ⟨ia, ?_, ?_, ?_⟩
      · simp only [List.length_cons]
        omega
      · simp [iretry]
      · simp [List.filter, h2, ifilt]
    · refine ⟨ia, ?_, iretry, ?_⟩
      · simp only [List.length_cons]
        omega
      · simp [List.filter, h2, ifilt]
    · refine ⟨ia, ?_, iretry, ?_⟩
      · simp only [List.length_cons]
        omega
      · simp [List.filter, h2, ifilt]

/-- Helper: full-run accounting of the migrate_pages pass loop on a
worklist free of -ENOMEM outcomes. -/
theorem migratePagesLoop_spec (m : MigrateMode) :
    ∀ (fuel pass : Nat) (pages : List WPage) (f s t r : Nat),
    (∀ p ∈ pages, noENOMEM p) →
    (r = pages.length ∨ (r ≠ 0 ∧ 0 < fuel)) →
    (migratePagesLoop m fuel pass pages f s t r).aborted = false ∧
    (migratePagesLoop m fuel pass pages f s t r).rc =
      Int.ofNat (migratePagesLoop m fuel pass pages f s t r).failed ∧
    (migratePagesLoop m fuel pass pages f s t r).failed +
      (migratePagesLoop m fuel pass pages f s t r).succeeded
        = f + s + pages.length ∧
    (migratePagesLoop m fuel pass pages f s t r).passes ≤ pass + fuel := by
  intro fuel
  induction fuel with
  | zero =>
    intro pass pages f s t r _ hinv
    rcases hinv with hr | ⟨_, hf⟩
    · subst hr
      refine ⟨rfl, rfl, ?_, ?_⟩
      · show f + pages.length + s = f + s + pages.length
        omega
      · show pass ≤ pass + 0
        omega
    · exact absurd hf (by omega)
  | succ fuel ih =>
    intro pass pages f s t r h hinv
    by_cases hr0 : r = 0
    · have hlen : pages.length = 0 := by
        rcases hinv with hr | ⟨hne, _⟩
        · omega
        · exact absurd hr0 hne
      subst hr0
      refine ⟨rfl, rfl, ?_, ?_⟩
      · show f + 0 + s = f + s + pages.length
        omega
      · show pass ≤ pass + (fuel + 1)
        omega
    · obtain ⟨ha, hacc, hre, hfilt⟩ := migratePass_accounting m pass pages h
      have hnext : ∀ p ∈ (migratePass m pass pages).remaining, noENOMEM p := by
        intro q hq
        rw [hfilt] at hq
        exact h q (List.mem_of_mem_filter hq)
      have hrec := ih (pass + 1) (migratePass m pass pages).remaining
        (f + (migratePass m pass pages).failed)
        (s + (migratePass m pass pages).succeeded)
        (t + (migratePass m pass pages).transfers)
        (migratePass m pass pages).retry hnext (Or.inl hre)
      have hstep : migratePagesLoop m (fuel + 1) pass pages f s t r =
          migratePagesLoop m fuel (pass + 1) (migratePass m pass pages).remaining
            (f + (migratePass m pass pages).failed)
            (s + (migratePass m pass pages).succeeded)
            (t + (migratePass m pass pages).transfers)
            (migratePass m pass pages).retry := by
        simp [migratePagesLoop, hr0, ha]
      rw [hstep]
      refine ⟨hrec.1, hrec.2.1, ?_, ?_⟩
      · rw [hrec.2.2.1]
        omega
      · have := hrec.2.2.2
        omega

/-- C4 corrected (counterexample): a worklist of two frames whose first
attempt fails its destination allocation makes migrate_pages abort: it
returns the error code -ENOMEM rather than a failure count, and succeeded
plus failed is 1, not the worklist size 2, because the second frame is
never attempted. -/
theorem engine_enomem_abort_counterexample :
    (migratePages syncMode [enomemItem, plainItem]).rc = -ENOMEM ∧
    (migratePages syncMode [enomemItem, plainItem]).aborted = true ∧
    (migratePages syncMode [enomemItem, plainItem]).failed +
      (migratePages syncMode [enomemItem, plainItem]).succeeded = 1 ∧
    ([enomemItem, plainItem] : List WPage).length = 2 := by
  refine ⟨rfl, rfl, rfl, rfl⟩

/-- C4 amended: provided no attempt ever returns -ENOMEM (an -ENOMEM
attempt instead aborts the run, counts that frame failed, skips the rest
of the worklist and returns -ENOMEM itself), migrate_pages performs at
most 10 passes, a frame whose attempt returns -EAGAIN is exactly what
stays on the list for the next pass, a frame already at reference count 1
is counted as succeeded with no transfer work, and the function returns
the number of frames never successfully migrated, with succeeded plus
failed equal to the size of the initial worklist. -/
theorem engine_bounded_retry (m : MigrateMode) (pages : List WPage)
    (h : ∀ p ∈ pages, noENOMEM p) :
    (migratePages m pages).aborted = false ∧
    (migratePages m pages).passes ≤ 10 ∧
    (migratePages m pages).rc = Int.ofNat (migratePages m pages).failed ∧
    (migratePages m pages).failed + (migratePages m pages).succeeded
      = pages.length ∧
    (∀ pass, (migratePass m pass pages).remaining = pages.filter
      (fun p => decide ((serialAttempt p (decide (pass > 2)) m pass).1 = -EAGAIN))) ∧
    (∀ p : WPage, ∀ force : Bool, ∀ mm : MigrateMode, ∀ k : Nat,
      p.count1 = true → unmap_and_move p force mm k = (MIGRATEPAGE_SUCCESS, false)) := by
  have hs := migratePagesLoop_spec m 10 0 pages 0 0 0 1 h
    (Or.inr ⟨one_ne_zero, by decide⟩)
  refine ⟨hs.1, ?_, hs.2.1, ?_, ?_, ?_⟩
  · have := hs.2.2.2
    simpa [migratePages] using this
  · have := hs.2.2.1
    simpa [migratePages] using this
  · intro pass
    exact (migratePass_accounting m pass pages h).2.2.2
  · intro p force mm k hc
    simp [unmap_and_move, hc]

/-- C4 witness: on a concrete worklist of a freed frame and a plain frame
the engine neither aborts nor exceeds its pass bound and accounts for
both frames. -/
theorem engine_bounded_retry_witness :
    (∀ p ∈ [count1Item, plainItem], noENOMEM p) ∧
    (migratePages syncMode [count1Item, plainItem]).aborted = false ∧
    (migratePages syncMode [count1Item, plainItem]).passes ≤ 10 ∧
    (migratePages syncMode [count1Item, plainItem]).rc =
      Int.ofNat (migratePages syncMode [count1Item, plainItem]).failed ∧
    (migratePages syncMode [count1Item, plainItem]).failed +
      (migratePages syncMode [count1Item, plainItem]).succeeded = 2 := by
  have hyp : ∀ p ∈ [count1Item, plainItem], noENOMEM p := by
    intro p hp
    simp only [List.mem_cons, List.not_mem_nil, or_false] at hp
    rcases hp with rfl | rfl
    · exact ⟨rfl, fun _ => show (MIGRATEPAGE_SUCCESS : Int) ≠ -ENOMEM from by decide⟩
    · exact ⟨rfl, fun _ => show (MIGRATEPAGE_SUCCESS : Int) ≠ -ENOMEM from by decide⟩
  have := engine_bounded_retry syncMode [count1Item, plainItem] hyp
  exact ⟨hyp, this.1, this.2.1, this.2.2.1, this.2.2.2.1⟩

/-- C5 corrected (counterexample): a frame under active writeback
attempted in asynchronous mode returns -EBUSY, not the transient-retry
code -EAGAIN, and migrate_pages counts it as a permanent failure in its
first and only pass, removing it from the worklist instead of retrying. -/
theorem writeback_ebusy_counterexample :
    __unmap_and_move wbItem false asyncMode 0 = -EBUSY ∧
    (-EBUSY : Int) ≠ -EAGAIN ∧
    (migratePages asyncMode [wbItem]).failed = 1 ∧
    (migratePages asyncMode [wbItem]).succeeded = 0 ∧
    (migratePages asyncMode [wbItem]).passes = 1 ∧
    (migratePages asyncMode [wbItem]).remaining.length = 0 := by
  refine ⟨rfl, by decide, rfl, rfl, rfl, rfl⟩

/-- C5 amended: a frame under active writeback attempted in any mode whose
mask part is not fully synchronous fails with -EBUSY, which the batched
engine treats as a permanent failure: the frame is counted failed in that
very pass, removed from the worklist, and never retried. -/
theorem writeback_nonsync_permanent (p : WPage) (m : MigrateMode)
    (force : Bool) (pass : Nat)
    (hl : p.trylockOk = true) (hw : p.writeback = true)
    (hm : m.kind ≠ SyncKind.sync) (hc : p.count1 = false)
    (hn : p.newPageOk = true) (hh : p.isHuge = false) :
    __unmap_and_move p force m pass = -EBUSY ∧
    (migratePages m [p]).failed = 1 ∧
    (migratePages m [p]).succeeded = 0 ∧
    (migratePages m [p]).passes = 1 ∧
    (migratePages m [p]).remaining.length = 0 := by
  have hb : ∀ fo k, __unmap_and_move p fo m k = -EBUSY := by
    intro fo k
    simp [__unmap_and_move, hl, hw, hm]
  have hatt : ∀ fo k, serialAttempt p fo m k = (-EBUSY, true) := by
    intro fo k
    simp [serialAttempt, hh, unmap_and_move, hc, hn, hb]
  have hpass : migratePass m 0 [p] = ⟨[], 0, 1, 0, 1, false⟩ := by
    simp [migratePass, hatt, EBUSY, ENOMEM, EAGAIN, MIGRATEPAGE_SUCCESS, boolToNat]
  refine ⟨hb force pass, ?_, ?_, ?_, ?_⟩ <;>
    simp [migratePages, migratePagesLoop, hpass]

/-- C5 amended witness: the concrete writeback frame in asynchronous mode
is permanently failed in one pass. -/
theorem writeback_nonsync_permanent_witness :
    wbItem.trylockOk = true ∧ wbItem.writeback = true ∧
    asyncMode.kind ≠ SyncKind.sync ∧
    __unmap_and_move wbItem false asyncMode 0 = -EBUSY ∧
    (migratePages asyncMode [wbItem]).failed = 1 ∧
    (migratePages asyncMode [wbItem]).succeeded = 0 ∧
    (migratePages asyncMode [wbItem]).passes = 1 ∧
    (migratePages asyncMode [wbItem]).remaining.length = 0 := by
  have := writeback_nonsync_permanent wbItem asyncMode false 0 rfl rfl
    (by decide) rfl rfl rfl
  exact ⟨rfl, rfl, by decide, this.1, this.2.1, this.2.2.1, this.2.2.2.1,
    this.2.2.2.2⟩

/-- Helper: with a working destination allocation the concurrent attempt
step never reports -ENOMEM. -/
theorem unmap_concur_ne_nomem (p : WPage) (force : Bool) (m : MigrateMode)
    (h : p.newPageOk = true) :
    unmap_pages_and_get_new_concur p force m ≠ ConcurOutcome.nomem := by
  simp only [unmap_pages_and_get_new_concur, h]
  split_ifs <;> first
    | decide
    | simp_all

/-- Helper: classification of a hugetlb head item. -/
theorem concurOutcomes_cons_huge (m : MigrateMode) (q : WPage)
    (qs : List WPage) (h1 : q.isHuge = true) :
    concurOutcomes m (q :: qs) =
      ((q, ConcurOutcome.serializedHuge) :: (concurOutcomes m qs).1,
       (concurOutcomes m qs).2) := by
  simp [concurOutcomes, h1]

/-- Helper: classification of a mapped head item. -/
theorem concurOutcomes_cons_mapped (m : MigrateMode) (q : WPage)
    (qs : List WPage) (h1 : q.isHuge = false) (h2 : q.hasMapping = true) :
    concurOutcomes m (q :: qs) =
      ((q, ConcurOutcome.serializedMapped) :: (concurOutcomes m qs).1,
       (concurOutcomes m qs).2) := by
  simp [concurOutcomes, h1, h2]

/-- Helper: classification of an attempted head item whose attempt is not
-ENOMEM. -/
theorem concurOutcomes_cons_step (m : MigrateMode) (q : WPage)
    (qs : List WPage) (h1 : q.isHuge = false) (h2 : q.hasMapping = false)
    (h3 : unmap_pages_and_get_new_concur q false m ≠ ConcurOutcome.nomem) :
    concurOutcomes m (q :: qs) =
      ((q, unmap_pages_and_get_new_concur q false m) :: (concurOutcomes m qs).1,
       (concurOutcomes m qs).2) := by
  simp [concurOutcomes, h1, h2, h3]

/-- Helper: classification of an attempted head item whose attempt fails
allocation. -/
theorem concurOutcomes_cons_nomem (m : MigrateMode) (q : WPage)
    (qs : List WPage) (h1 : q.isHuge = false) (h2 : q.hasMapping = false)
    (h3 : unmap_pages_and_get_new_concur q false m = ConcurOutcome.nomem) :
    concurOutcomes m (q :: qs) =
      ((q, ConcurOutcome.nomem) ::
        qs.map (fun r => (r, ConcurOutcome.notReached)), true) := by
  simp [concurOutcomes, h1, h2, h3]

/-- Helper: every item classified by the concurrent pass comes from the
input list. -/
theorem concurOutcomes_fst_mem (m : MigrateMode) :
    ∀ items : List WPage, ∀ x ∈ (concurOutcomes m items).1, x.1 ∈ items := by
  intro items
  induction items with
  | nil => simp [concurOutcomes]
  | cons q qs ih =>
    intro x hx
    by_cases h1 : q.isHuge = true
    · rw [concurOutcomes_cons_huge m q qs h1] at hx
      rcases List.mem_cons.mp hx with rfl | hx
      · exact List.mem_cons_self _ _
      · exact List.mem_cons_of_mem _ (ih x hx)
    · have hq1 : q.isHuge = false := by simpa using h1
      by_cases h2 : q.hasMapping = true
      · rw [concurOutcomes_cons_mapped m q qs hq1 h2] at hx
        rcases List.mem_cons.mp hx with rfl | hx
        · exact List.mem_cons_self _ _
        · exact List.mem_cons_of_mem _ (ih x hx)
      · have hq2 : q.hasMapping = false := by simpa using h2
        by_cases h3 : unmap_pages_and_get_new_concur q false m
            = ConcurOutcome.nomem
        · rw [concurOutcomes_cons_nomem m q qs hq1 hq2 h3] at hx
          rcases List.mem_cons.mp hx with rfl | hx
          · exact List.mem_cons_self _ _
          · obtain ⟨a, ha, rfl⟩ := List.mem_map.mp hx
            exact List.mem_cons_of_mem _ ha
        · rw [concurOutcomes_cons_step m q qs hq1 hq2 h3] at hx
          rcases List.mem_cons.mp hx with rfl | hx
          · exact List.mem_cons_self _ _
          · exact List.mem_cons_of_mem _ (ih x hx)

/-- Helper: the pages still on the input list after the concurrent pass
all come from the input list. -/
theorem concurFromAfter_sub (m : MigrateMode) (items : List WPage) :
    ∀ p ∈ concurFromAfter m items, p ∈ items := by
  intro p hp
  obtain ⟨x, hx, rfl⟩ := List.mem_map.mp hp
  exact concurOutcomes_fst_mem m items x (List.mem_of_mem_filter hx)

/-- Helper: the batched path is only ever attempted on pages that are
neither hugetlb nor mapped. -/
theorem concurAttempted_not_huge (m : MigrateMode) :
    ∀ items : List WPage, ∀ p ∈ concurAttemptedList m items,
      p.isHuge = false ∧ p.hasMapping = false := by
  intro items
  induction items with
  | nil => simp [concurAttemptedList, concurOutcomes]
  | cons q qs ih =>
    intro p hp
    by_cases h1 : q.isHuge = true
    · have he : concurAttemptedList m (q :: qs) = concurAttemptedList m qs := by
        unfold concurAttemptedList
        rw [concurOutcomes_cons_huge m q qs h1]
        simp [concurAttempted]
      rw [he] at hp
      exact ih p hp
    · have hq1 : q.isHuge = false := by simpa using h1
      by_cases h2 : q.hasMapping = true
      · have he : concurAttemptedList m (q :: qs) = concurAttemptedList m qs := by
          unfold concurAttemptedList
          rw [concurOutcomes_cons_mapped m q qs hq1 h2]
          simp [concurAttempted]
        rw [he] at hp
        exact ih p hp
      · have hq2 : q.hasMapping = false := by simpa using h2
        by_cases h3 : unmap_pages_and_get_new_concur q false m
            = ConcurOutcome.nomem
        · have he : concurAttemptedList m (q :: qs) = [q] := by
            unfold concurAttemptedList
            rw [concurOutcomes_cons_nomem m q qs hq1 hq2 h3]
            simp [concurAttempted, List.filter_map, Function.comp]
          rw [he] at hp
          rcases List.mem_singleton.mp hp with rfl
          exact ⟨hq1, hq2⟩
        · have he : concurAttemptedList m (q :: qs)
              = q :: concurAttemptedList m qs := by
            unfold concurAttemptedList
            rw [concurOutcomes_cons_step m q qs hq1 hq2 h3]
            have ha : concurAttempted (unmap_pages_and_get_new_concur q false m)
                = true := by
              cases hs : unmap_pages_and_get_new_concur q false m <;>
                first
                  | rfl
                  | exact absurd hs h3
                  | (unfold unmap_pages_and_get_new_concur at hs
                     split_ifs at hs)
            simp [List.filter_cons, ha]
          rw [he] at hp
          rcases List.mem_cons.mp hp with rfl | hp
          · exact ⟨hq1, hq2⟩
          · exact ih p hp

/-- Helper: hugetlb pages and mapped pages are still on the input list
after the concurrent pass. -/
theorem concur_from_mem (m : MigrateMode) :
    ∀ items : List WPage, (∀ q ∈ items, q.newPageOk = true) →
    ∀ p ∈ items, (p.isHuge = true ∨ p.hasMapping = true) →
    p ∈ concurFromAfter m items := by
  intro items
  induction items with
  | nil => simp
  | cons q qs ih =>
    intro hok p hp hh
    have hoks : ∀ r ∈ qs, r.newPageOk = true := fun r hr => hok r (by simp [hr])
    by_cases h1 : q.isHuge = true
    · have he : concurFromAfter m (q :: qs) = q :: concurFromAfter m qs := by
        unfold concurFromAfter
        rw [concurOutcomes_cons_huge m q qs h1]
        simp [List.filter_cons, keepsOnFrom]
      rw [he]
      rcases List.mem_cons.mp hp with rfl | hp2
      · exact List.mem_cons_self _ _
      · exact List.mem_cons_of_mem _ (ih hoks p hp2 hh)
    · have hq1 : q.isHuge = false := by simpa using h1
      by_cases h2 : q.hasMapping = true
      · have he : concurFromAfter m (q :: qs) = q :: concurFromAfter m qs := by
          unfold concurFromAfter
          rw [concurOutcomes_cons_mapped m q qs hq1 h2]
          simp [List.filter_cons, keepsOnFrom]
        rw [he]
        rcases List.mem_cons.mp hp with rfl | hp2
        · exact List.mem_cons_self _ _
        · exact List.mem_cons_of_mem _ (ih hoks p hp2 hh)
      · rcases List.mem_cons.mp hp with rfl | hp2
        · rcases hh with hh | hh
          · exact absurd hh h1
          · exact absurd hh h2
        · have hq2 : q.hasMapping = false := by simpa using h2
          have hq := hok q (by simp)
          have h3 := unmap_concur_ne_nomem q false m hq
          have hmem := ih hoks p hp2 hh
          cases hk : keepsOnFrom (unmap_pages_and_get_new_concur q false m) with
          | false =>
            have he : concurFromAfter m (q :: qs) = concurFromAfter m qs := by
              unfold concurFromAfter
              rw [concurOutcomes_cons_step m q qs hq1 hq2 h3]
              simp [List.filter_cons, hk]
            rw [he]
            exact hmem
          | true =>
            have he : concurFromAfter m (q :: qs)
                = q :: concurFromAfter m qs := by
              unfold concurFromAfter
              rw [concurOutcomes_cons_step m q qs hq1 hq2 h3]
              simp [List.filter_cons, hk]
            rw [he]
            exact List.mem_cons_of_mem _ hmem

/-- C6: migrate_pages_concur executes exactly one outer pass of its staged
pipeline; the batched path is attempted only on frames that are neither
hugetlb nor mapped, hugetlb and mapped frames stay on the input list
without a batched attempt, and every frame still on the input list
afterwards is handed to the serial migrate_pages engine, whose failure
count becomes the returned result (when nothing remains the pass's own
nr_failed is returned). -/
theorem concur_one_pass_delegates (m : MigrateMode) (items : List WPage)
    (h : ∀ p ∈ items, noENOMEM p) :
    (migrate_pages_concur m items).passes = 1 ∧
    (∀ p ∈ (migrate_pages_concur m items).attempted,
      p.isHuge = false ∧ p.hasMapping = false) ∧
    (∀ p ∈ items, (p.isHuge = true ∨ p.hasMapping = true) →
      p ∈ (migrate_pages_concur m items).fromAfter) ∧
    ((migrate_pages_concur m items).fromAfter ≠ [] →
      (migrate_pages_concur m items).rc
        = (migratePages m (migrate_pages_concur m items).fromAfter).rc ∧
      (migrate_pages_concur m items).rc
        = Int.ofNat (migratePages m (migrate_pages_concur m items).fromAfter).failed) ∧
    ((migrate_pages_concur m items).fromAfter = [] →
      (migrate_pages_concur m items).rc
        = Int.ofNat (migrate_pages_concur m items).nrFailed) := by
  have hok : ∀ q ∈ items, q.newPageOk = true := fun q hq => (h q hq).1
  refine ⟨rfl, ?_, ?_, ?_, ?_⟩
  · intro p hp
    exact concurAttempted_not_huge m items p hp
  · intro p hp hh
    exact concur_from_mem m items hok p hp hh
  · intro hne
    have hfe : (concurFromAfter m items).isEmpty = false := by
      cases hfa : concurFromAfter m items with
      | nil => exact absurd hfa hne
      | cons a l => simp [hfa]
    have hrc : (migrate_pages_concur m items).rc
        = (migratePages m (concurFromAfter m items)).rc := by
      show (if (concurFromAfter m items).isEmpty = true then
          Int.ofNat (concurRetry m items)
        else (migratePages m (concurFromAfter m items)).rc) = _
      rw [hfe]
      simp
    have hno : ∀ p ∈ concurFromAfter m items, noENOMEM p :=
      fun p hp => h p (concurFromAfter_sub m items p hp)
    have hspec := migratePagesLoop_spec m 10 0 (concurFromAfter m items)
      0 0 0 1 hno (Or.inr ⟨one_ne_zero, by decide⟩)
    exact ⟨hrc, by rw [hrc]; exact hspec.2.1⟩
  · intro he
    have hfe : (concurFromAfter m items).isEmpty = true := by
      have : concurFromAfter m items = [] := he
      rw [this]
      rfl
    show (if (concurFromAfter m items).isEmpty = true then
        Int.ofNat (concurRetry m items)
      else (migratePages m (concurFromAfter m items)).rc) = _
    rw [hfe]
    simp [migrate_pages_concur]

/-- C6 witness: on a concrete list holding a hugetlb frame, a mapped frame
and a plain frame, the concurrent engine runs one pass, defers the
hugetlb and mapped frames to the remainder without a batched attempt, and
returns the serial engine's failure count over that remainder. -/
theorem concur_one_pass_delegates_witness :
    (∀ p ∈ [hugeItem, mappedItem, plainItem], noENOMEM p) ∧
    (migrate_pages_concur syncMode [hugeItem, mappedItem, plainItem]).passes = 1 ∧
    hugeItem ∈ (migrate_pages_concur syncMode [hugeItem, mappedItem, plainItem]).fromAfter ∧
    mappedItem ∈ (migrate_pages_concur syncMode [hugeItem, mappedItem, plainItem]).fromAfter ∧
    ((migrate_pages_concur syncMode [hugeItem, mappedItem, plainItem]).fromAfter ≠ [] →
      (migrate_pages_concur syncMode [hugeItem, mappedItem, plainItem]).rc
        = (migratePages syncMode
            (migrate_pages_concur syncMode [hugeItem, mappedItem, plainItem]).fromAfter).rc) := by
  have hyp : ∀ p ∈ [hugeItem, mappedItem, plainItem], noENOMEM p := by
    intro p hp
    simp only [List.mem_cons, List.not_mem_nil, or_false] at hp
    rcases hp with rfl | rfl | rfl <;>
      exact ⟨rfl, fun _ => show (MIGRATEPAGE_SUCCESS : Int) ≠ -ENOMEM from by decide⟩
  have := concur_one_pass_delegates syncMode [hugeItem, mappedItem, plainItem] hyp
  refine ⟨hyp, this.1, ?_, ?_, fun hne => (this.2.2.2.1 hne).1⟩
  · exact this.2.2.1 hugeItem (by simp) (Or.inl rfl)
  · exact this.2.2.1 mappedItem (by simp) (Or.inr rfl)

/-- Helper: a range store leaves indices below the range unchanged. -/
theorem storeRange_below (s : Nat → Option Int) (a b : Nat) (v : Int)
    (j : Nat) (hj : j < a) : storeRange s a b v j = s j := by
  have hna : ¬(a ≤ j ∧ j < b) := fun h => absurd h.1 (by omega)
  simp [storeRange, hna]

/-- Helper: a range store writes inside the range. -/
theorem storeRange_at (s : Nat → Option Int) (a b : Nat) (v : Int)
    (j : Nat) (h1 : a ≤ j) (h2 : j < b) : storeRange s a b v j = some v := by
  simp [storeRange, h1, h2]

/-- Good-batch condition for do_pages_move: both user fetches succeed and
the destination node is in range, has memory and is allowed. -/
def goodReqs (rs : List MoveReq) : Prop :=
  ∀ r ∈ rs, r.readOk = true ∧ 0 ≤ r.node ∧ r.node < (MAX_NUMNODES : Int) ∧
    r.nodeHasMemory = true ∧ r.nodeAllowed = true

/-- Helper: on a batch whose requests are all readable with valid allowed
nodes and whose flushes succeed, the do_pages_move loop processes every
request, never writes below its run floor, and stores every negative
add_page_for_migration result into that request's own status slot. -/
theorem doPagesMoveLoop_good (moveRes : List Nat → Int)
    (hmz : ∀ l, moveRes l = 0) (n : Nat) :
    ∀ rs : List MoveReq, goodReqs rs →
    ∀ (i : Nat) (cur : Option Int) (start : Nat) (plist : List Nat)
      (st : Nat → Option Int) (err : Int),
    i + rs.length = n → start ≤ i →
    (doPagesMoveLoop moveRes n rs i cur start plist st err).processed = n ∧
    (∀ j, j < start →
      (doPagesMoveLoop moveRes n rs i cur start plist st err).status j = st j) ∧
    (cur = none → plist = [] → ∀ j, j < i →
      (doPagesMoveLoop moveRes n rs i cur start plist st err).status j = st j) ∧
    (∀ j r, rs.get? j = some r → r.addPage < 0 →
      (doPagesMoveLoop moveRes n rs i cur start plist st err).status (i + j)
        = some r.addPage) := by
  intro rs
  induction rs with
  | nil =>
    intro _ i cur start plist st err hn hstart
    by_cases hpl : plist.isEmpty = true
    · have he : doPagesMoveLoop moveRes n [] i cur start plist st err
          = ⟨err, st, n⟩ := by
        simp [doPagesMoveLoop, flushTail, hpl]
      rw [he]
      refine ⟨rfl, fun j _ => rfl, fun _ _ j _ => rfl, fun j r hj _ => ?_⟩
      simp at hj
    · cases cur with
      | none =>
        have he : doPagesMoveLoop moveRes n [] i none start plist st err
            = ⟨if err ≥ 0 then 0 else err, st, n⟩ := by
          simp [doPagesMoveLoop, flushTail, hpl, hmz]
        rw [he]
        refine ⟨rfl, fun j _ => rfl, fun _ _ j _ => rfl, fun j r hj _ => ?_⟩
        simp at hj
      | some c =>
        have he : doPagesMoveLoop moveRes n [] i (some c) start plist st err
            = ⟨if err ≥ 0 then 0 else err, storeRange st start i c, n⟩ := by
          simp [doPagesMoveLoop, flushTail, hpl, hmz]
        rw [he]
        refine ⟨rfl, fun j hj => storeRange_below st start i c j hj,
          fun hcc => absurd hcc (by simp), fun j r hj _ => ?_⟩
        simp at hj
  | cons r rs ih =>
    intro hgb i cur start plist st err hn hstart
    obtain ⟨hr1, hr2, hr3, hr4, hr5⟩ := hgb r (List.mem_cons_self _ _)
    have hgbs : goodReqs rs := fun q hq => hgb q (List.mem_cons_of_mem _ hq)
    have hn' : (i + 1) + rs.length = n := by
      simp only [List.length_cons] at hn
      omega
    have hnn1 : ¬(r.node < 0) := not_lt.mpr hr2
    have hnn2 : ¬((MAX_NUMNODES : Int) ≤ r.node) := not_le.mpr hr3
    cases cur with
    | none =>
      rcases lt_trichotomy r.addPage 0 with hap | hap | hap
      · have hap1 : ¬(r.addPage = 0) := ne_of_lt hap
        have hap2 : ¬(0 < r.addPage) := not_lt.mpr (le_of_lt hap)
        have he : doPagesMoveLoop moveRes n (r :: rs) i none start plist st err
            = doPagesMoveLoop moveRes n rs (i + 1) none i []
                (storeRange st i (i + 1) r.addPage) 0 := by
          simp [doPagesMoveLoop, hr1, hnn1, hnn2, hr4, hr5, hmz, hap1, hap2]
        rw [he]
        obtain ⟨ia, ib1, ib2, ic⟩ := ih hgbs (i + 1) none i []
          (storeRange st i (i + 1) r.addPage) 0 hn' (by omega)
        refine ⟨ia, ?_, ?_, ?_⟩
        · intro j hj
          rw [ib2 rfl rfl j (by omega)]
          exact storeRange_below st i (i + 1) r.addPage j (by omega)
        · intro _ _ j hj
          rw [ib2 rfl rfl j (by omega)]
          exact storeRange_below st i (i + 1) r.addPage j (by omega)
        · intro j q hj hq
          match j, hj with
          | 0, hj =>
            have hqr : r = q := by simpa using hj
            subst hqr
            have hval : storeRange st i (i + 1) r.addPage i = some r.addPage :=
              storeRange_at st i (i + 1) r.addPage i (by omega) (by omega)
            simpa using (ib2 rfl rfl i (by omega)).trans hval
          | j + 1, hj =>
            have hj' : rs.get? j = some q := by simpa using hj
            have := ic j q hj' hq
            rw [show (i + 1) + j = i + (j + 1) from by omega] at this
            exact this
      · have he : doPagesMoveLoop moveRes n (r :: rs) i none start plist st err
            = doPagesMoveLoop moveRes n rs (i + 1) (some r.node) i plist
                (storeRange st i (i + 1) r.node) 0 := by
          simp [doPagesMoveLoop, hr1, hnn1, hnn2, hr4, hr5, hmz, hap]
        rw [he]
        obtain ⟨ia, ib1, ib2, ic⟩ := ih hgbs (i + 1) (some r.node) i plist
          (storeRange st i (i + 1) r.node) 0 hn' (by omega)
        refine ⟨ia, ?_, ?_, ?_⟩
        · intro j hj
          rw [ib1 j (by omega)]
          exact storeRange_below st i (i + 1) r.node j (by omega)
        · intro _ _ j hj
          rw [ib1 j (by omega)]
          exact storeRange_below st i (i + 1) r.node j (by omega)
        · intro j q hj hq
          match j, hj with
          | 0, hj =>
            have hqr : r = q := by simpa using hj
            subst hqr
            exact absurd hq (by omega)
          | j + 1, hj =>
            have hj' : rs.get? j = some q := by simpa using hj
            have := ic j q hj' hq
            rw [show (i + 1) + j = i + (j + 1) from by omega] at this
            exact this
      · have hap1 : ¬(r.addPage = 0) := ne_of_gt hap
        have he : doPagesMoveLoop moveRes n (r :: rs) i none start plist st err
            = doPagesMoveLoop moveRes n rs (i + 1) (some r.node) i
                (plist ++ [i]) st r.addPage := by
          simp [doPagesMoveLoop, hr1, hnn1, hnn2, hr4, hr5, hmz, hap1, hap]
        rw [he]
        obtain ⟨ia, ib1, ib2, ic⟩ := ih hgbs (i + 1) (some r.node) i
          (plist ++ [i]) st r.addPage hn' (by omega)
        refine ⟨ia, ?_, ?_, ?_⟩
        · intro j hj
          exact ib1 j (by omega)
        · intro _ _ j hj
          exact ib1 j (by omega)
        · intro j q hj hq
          match j, hj with
          | 0, hj =>
            have hqr : r = q := by simpa using hj
            subst hqr
            exact absurd hq (by omega)
          | j + 1, hj =>
            have hj' : rs.get? j = some q := by simpa using hj
            have := ic j q hj' hq
            rw [show (i + 1) + j = i + (j + 1) from by omega] at this
            exact this
    | some c =>
      by_cases hnc : r.node = c
      · have hncd : ¬(r.node ≠ c) := fun h => h hnc
        rcases lt_trichotomy r.addPage 0 with hap | hap | hap
        · have hap1 : ¬(r.addPage = 0) := ne_of_lt hap
          have hap2 : ¬(0 < r.addPage) := not_lt.mpr (le_of_lt hap)
          have he : doPagesMoveLoop moveRes n (r :: rs) i (some c) start plist st err
              = doPagesMoveLoop moveRes n rs (i + 1) none start []
                  (if start < i then
                    storeRange (storeRange st i (i + 1) r.addPage) start i c
                   else storeRange st i (i + 1) r.addPage) 0 := by
            simp [doPagesMoveLoop, hr1, hnn1, hnn2, hr4, hr5, hmz, hap1,
              hap2, hncd]
          rw [he]
          have hstf1 : ∀ j, j < start →
              (if start < i then
                storeRange (storeRange st i (i + 1) r.addPage) start i c
               else storeRange st i (i + 1) r.addPage) j = st j := by
            intro j hj
            by_cases hsi : start < i
            · rw [if_pos hsi, storeRange_below _ start i c j hj,
                storeRange_below st i (i + 1) r.addPage j (by omega)]
            · rw [if_neg hsi, storeRange_below st i (i + 1) r.addPage j (by omega)]
          have hstf2 : (if start < i then
                storeRange (storeRange st i (i + 1) r.addPage) start i c
               else storeRange st i (i + 1) r.addPage) i = some r.addPage := by
            by_cases hsi : start < i
            · rw [if_pos hsi]
              have : ¬(start ≤ i ∧ i < i) := fun h => absurd h.2 (by omega)
              simp only [storeRange, this, if_false]
              exact storeRange_at st i (i + 1) r.addPage i (by omega) (by omega)
            · rw [if_neg hsi]
              exact storeRange_at st i (i + 1) r.addPage i (by omega) (by omega)
          obtain ⟨ia, ib1, ib2, ic⟩ := ih hgbs (i + 1) none start []
            (if start < i then
              storeRange (storeRange st i (i + 1) r.addPage) start i c
             else storeRange st i (i + 1) r.addPage) 0 hn' (by omega)
          refine ⟨ia, ?_, ?_, ?_⟩
          · intro j hj
            rw [ib2 rfl rfl j (by omega)]
            exact hstf1 j hj
          · intro hcc
            exact absurd hcc (by simp)
          · intro j q hj hq
            match j, hj with
            | 0, hj =>
              have hqr : r = q := by simpa using hj
              subst hqr
              simpa using (ib2 rfl rfl i (by omega)).trans hstf2
            | j + 1, hj =>
              have hj' : rs.get? j = some q := by simpa using hj
              have := ic j q hj' hq
              rw [show (i + 1) + j = i + (j + 1) from by omega] at this
              exact this
        · have he : doPagesMoveLoop moveRes n (r :: rs) i (some c) start plist st err
              = doPagesMoveLoop moveRes n rs (i + 1) (some c) start plist
                  (storeRange st i (i + 1) c) 0 := by
            simp [doPagesMoveLoop, hr1, hnn1, hnn2, hr4, hr5, hmz, hap, hncd]
          rw [he]
          obtain ⟨ia, ib1, ib2, ic⟩ := ih hgbs (i + 1) (some c) start plist
            (storeRange st i (i + 1) c) 0 hn' (by omega)
          refine ⟨ia, ?_, ?_, ?_⟩
          · intro j hj
            rw [ib1 j hj]
            exact storeRange_below st i (i + 1) c j (by omega)
          · intro hcc
            exact absurd hcc (by simp)
          · intro j q hj hq
            match j, hj with
            | 0, hj =>
              have hqr : r = q := by simpa using hj
              subst hqr
              exact absurd hq (by omega)
            | j + 1, hj =>
              have hj' : rs.get? j = some q := by simpa using hj
              have := ic j q hj' hq
              rw [show (i + 1) + j = i + (j + 1) from by omega] at this
              exact this
        · have hap1 : ¬(r.addPage = 0) := ne_of_gt hap
          have he : doPagesMoveLoop moveRes n (r :: rs) i (some c) start plist st err
              = doPagesMoveLoop moveRes n rs (i + 1) (some c) start
                  (plist ++ [i]) st r.addPage := by
            simp [doPagesMoveLoop, hr1, hnn1, hnn2, hr4, hr5, hmz, hap1,
              hap, hncd]
          rw [he]
          obtain ⟨ia, ib1, ib2, ic⟩ := ih hgbs (i + 1) (some c) start
            (plist ++ [i]) st r.addPage hn' (by omega)
          refine ⟨ia, ?_, ?_, ?_⟩
          · intro j hj
            exact ib1 j hj
          · intro hcc
            exact absurd hcc (by simp)
          · intro j q hj hq
            match j, hj with
            | 0, hj =>
              have hqr : r = q := by simpa using hj
              subst hqr
              exact absurd hq (by omega)
            | j + 1, hj =>
              have hj' : rs.get? j = some q := by simpa using hj
              have := ic j q hj' hq
              rw [show (i + 1) + j = i + (j + 1) from by omega] at this
              exact this
      · rcases lt_trichotomy r.addPage 0 with hap | hap | hap
        · have hap1 : ¬(r.addPage = 0) := ne_of_lt hap
          have hap2 : ¬(0 < r.addPage) := not_lt.mpr (le_of_lt hap)
          have he : doPagesMoveLoop moveRes n (r :: rs) i (some c) start plist st err
              = doPagesMoveLoop moveRes n rs (i + 1) none i []
                  (storeRange (storeRange st start i c) i (i + 1) r.addPage) 0 := by
            simp [doPagesMoveLoop, hr1, hnn1, hnn2, hr4, hr5, hmz, hap1,
              hap2, hnc]
          rw [he]
          obtain ⟨ia, ib1, ib2, ic⟩ := ih hgbs (i + 1) none i []
            (storeRange (storeRange st start i c) i (i + 1) r.addPage) 0
            hn' (by omega)
          refine ⟨ia, ?_, ?_, ?_⟩
          · intro j hj
            rw [ib2 rfl rfl j (by omega),
              storeRange_below _ i (i + 1) r.addPage j (by omega),
              storeRange_below st start i c j (by omega)]
          · intro hcc
            exact absurd hcc (by simp)
          · intro j q hj hq
            match j, hj with
            | 0, hj =>
              have hqr : r = q := by simpa using hj
              subst hqr
              have hval : storeRange (storeRange st start i c) i (i + 1) r.addPage i
                  = some r.addPage :=
                storeRange_at _ i (i + 1) r.addPage i (by omega) (by omega)
              simpa using (ib2 rfl rfl i (by omega)).trans hval
            | j + 1, hj =>
              have hj' : rs.get? j = some q := by simpa using hj
              have := ic j q hj' hq
              rw [show (i + 1) + j = i + (j + 1) from by omega] at this
              exact this
        · have he : doPagesMoveLoop moveRes n (r :: rs) i (some c) start plist st err
              = doPagesMoveLoop moveRes n rs (i + 1) (some r.node) i []
                  (storeRange (storeRange st start i c) i (i + 1) r.node) 0 := by
            simp [doPagesMoveLoop, hr1, hnn1, hnn2, hr4, hr5, hmz, hap, hnc]
          rw [he]
          obtain ⟨ia, ib1, ib2, ic⟩ := ih hgbs (i + 1) (some r.node) i []
            (storeRange (storeRange st start i c) i (i + 1) r.node) 0
            hn' (by omega)
          refine ⟨ia, ?_, ?_, ?_⟩
          · intro j hj
            rw [ib1 j (by omega),
              storeRange_below _ i (i + 1) r.node j (by omega),
              storeRange_below st start i c j (by omega)]
          · intro hcc
            exact absurd hcc (by simp)
          · intro j q hj hq
            match j, hj with
            | 0, hj =>
              have hqr : r = q := by simpa using hj
              subst hqr
              exact absurd hq (by omega)
            | j + 1, hj =>
              have hj' : rs.get? j = some q := by simpa using hj
              have := ic j q hj' hq
              rw [show (i + 1) + j = i + (j + 1) from by omega] at this
              exact this
        · have hap1 : ¬(r.addPage = 0) := ne_of_gt hap
          have he : doPagesMoveLoop moveRes n (r :: rs) i (some c) start plist st err
              = doPagesMoveLoop moveRes n rs (i + 1) (some r.node) i
                  ([] ++ [i]) (storeRange st start i c) r.addPage := by
            simp [doPagesMoveLoop, hr1, hnn1, hnn2, hr4, hr5, hmz, hap1,
              hap, hnc]
          rw [he]
          obtain ⟨ia, ib1, ib2, ic⟩ := ih hgbs (i + 1) (some r.node) i
            ([] ++ [i]) (storeRange st start i c) r.addPage hn' (by omega)
          refine ⟨ia, ?_, ?_, ?_⟩
          · intro j hj
            rw [ib1 j (by omega), storeRange_below st start i c j (by omega)]
          · intro hcc
            exact absurd hcc (by simp)
          · intro j q hj hq
            match j, hj with
            | 0, hj =>
              have hqr : r = q := by simpa using hj
              subst hqr
              exact absurd hq (by omega)
            | j + 1, hj =>
              have hj' : rs.get? j = some q := by simpa using hj
              have := ic j q hj' hq
              rw [show (i + 1) + j = i + (j + 1) from by omega] at this
              exact this

/-- C7 corrected (counterexample): a request whose destination node is out
of range makes do_pages_move abort through out_flush: it returns -ENODEV,
the error is not stored in that address's status slot (which stays
unwritten), and the second request of the batch is never examined. -/
theorem bulk_move_abort_counterexample :
    (do_pages_move moveRes0 [badNodeReq, goodReq]).ret = -ENODEV ∧
    (do_pages_move moveRes0 [badNodeReq, goodReq]).status 0 = none ∧
    (do_pages_move moveRes0 [badNodeReq, goodReq]).status 1 = none ∧
    (do_pages_move moveRes0 [badNodeReq, goodReq]).processed = 1 ∧
    ([badNodeReq, goodReq] : List MoveReq).length = 2 :=
  ⟨rfl, rfl, rfl, rfl, rfl⟩

/-- C7 amended: in do_pages_move only the page lookup and isolation errors
of add_page_for_migration (bad virtual address, absent page, shared page
without the move-all flag) are per-address: each is stored into that
address's own status slot and the remaining addresses are still processed.
An unreadable request array entry, an out-of-range or memoryless
destination node, or a node outside the task nodemask instead aborts the
batch: the function returns the error code itself and the remaining
addresses are never examined. -/
theorem bulk_move_per_address (moveRes : List Nat → Int)
    (hmz : ∀ l, moveRes l = 0) (reqs : List MoveReq) (hgb : goodReqs reqs) :
    (do_pages_move moveRes reqs).processed = reqs.length ∧
    (∀ j r, reqs.get? j = some r → r.addPage < 0 →
      (do_pages_move moveRes reqs).status j = some r.addPage) ∧
    (∀ (moveRes2 : List Nat → Int) (r : MoveReq) (rs : List MoveReq),
      r.readOk = true →
      (r.node < 0 ∨ (MAX_NUMNODES : Int) ≤ r.node ∨ r.nodeHasMemory = false) →
      (do_pages_move moveRes2 (r :: rs)).ret = -ENODEV ∧
      (do_pages_move moveRes2 (r :: rs)).processed = 1 ∧
      ∀ j, (do_pages_move moveRes2 (r :: rs)).status j = none) := by
  have main := doPagesMoveLoop_good moveRes hmz reqs.length reqs hgb 0 none 0
    [] (fun _ => none) 0 (by simp) (Nat.le_refl 0)
  refine ⟨main.1, ?_, ?_⟩
  · intro j r hj hr
    have := main.2.2.2 j r hj hr
    rw [show (0 : Nat) + j = j from by omega] at this
    exact this
  · intro moveRes2 r rs h1 h2
    have he : do_pages_move moveRes2 (r :: rs) = ⟨-ENODEV, fun _ => none, 1⟩ := by
      simp [do_pages_move, doPagesMoveLoop, flushTail, h1, h2]
    rw [he]
    exact ⟨rfl, rfl, fun _ => rfl⟩

/-- C7 amended witness: a concrete batch whose first address fails lookup
with -EFAULT has that error stored in slot 0 while the second address is
still processed. -/
theorem bulk_move_per_address_witness :
    goodReqs [lookupErrReq, goodReq] ∧
    (do_pages_move moveRes0 [lookupErrReq, goodReq]).processed = 2 ∧
    (do_pages_move moveRes0 [lookupErrReq, goodReq]).status 0
      = some (-EFAULT) := by
  have hgb : goodReqs [lookupErrReq, goodReq] := by
    unfold goodReqs
    decide
  have := bulk_move_per_address moveRes0 (fun _ => rfl)
    [lookupErrReq, goodReq] hgb
  exact ⟨hgb, this.1, this.2.1 0 lookupErrReq rfl (by decide)⟩

/-- Helper: the member loop of __copy_gigantic_page copies exactly the
members it visits, via DMA when that member's DMA copy succeeds and via
copy_highpage otherwise. -/
theorem gigLoop_spec (o : CopyOracle) (useDma : Bool) (src : Nat → Nat) :
    ∀ (k i : Nat) (dst : Nat → Nat) (j : Nat),
    gigLoop o useDma src k i dst j =
      if i ≤ j ∧ j < i + k then src j else dst j := by
  intro k
  induction k with
  | zero =>
    intro i dst j
    simp only [gigLoop]
    rw [if_neg (show ¬(i ≤ j ∧ j < i + 0) from fun h => by omega)]
  | succ k ih =>
    intro i dst j
    have hv : (if (if useDma = true then copy_page_dma_one o dst src i
          else (-EFAULT, dst i)).1 ≠ 0 then copy_highpage src i
        else (if useDma = true then copy_page_dma_one o dst src i
          else (-EFAULT, dst i)).2) = src i := by
      by_cases hd : useDma = true
      · by_cases hrc : o.dmaRc1 i = 0
        · simp [hd, copy_page_dma_one, hrc]
        · simp [hd, copy_page_dma_one, hrc, copy_highpage]
      · have hne : ((-EFAULT : Int), dst i).1 ≠ 0 :=
          show (-EFAULT : Int) ≠ 0 from by decide
        simp [hd, hne, copy_highpage]
    simp only [gigLoop, hv]
    rw [ih]
    by_cases hj : i + 1 ≤ j ∧ j < i + 1 + k
    · rw [if_pos hj, if_pos (show i ≤ j ∧ j < i + (k + 1) from by omega)]
    · rw [if_neg hj]
      show (if j = i then src i else dst j)
        = if i ≤ j ∧ j < i + (k + 1) then src j else dst j
      by_cases hji : j = i
      · subst hji
        rw [if_pos rfl, if_pos (show j ≤ j ∧ j < j + (k + 1) from by omega)]
      · rw [if_neg hji,
          if_neg (show ¬(i ≤ j ∧ j < i + (k + 1)) from fun h => by omega)]

/-- Helper: __copy_gigantic_page copies every member. -/
theorem copy_gigantic_total (o : CopyOracle) (m : MigrateMode)
    (dst src : Nat → Nat) (nr : Nat) :
    ∀ j, j < nr → __copy_gigantic_page o m dst src nr j = src j := by
  intro j hj
  rw [__copy_gigantic_page, gigLoop_spec o m.dma src nr 0 dst j,
    if_pos (show 0 ≤ j ∧ j < 0 + nr from by omega)]

/-- Helper: copy_huge_page copies every member whatever the oracle does. -/
theorem copy_huge_page_total (accel sysctl : Int) (o : CopyOracle)
    (m : MigrateMode) (dst src : Nat → Nat) (isHugetlb : Bool) (nr : Nat) :
    ∀ j, j < nr →
      (copy_huge_page accel sysctl o m dst src isHugetlb nr).1 j = src j := by
  intro j hj
  by_cases hgc : isHugetlb = true ∧ MAX_ORDER_NR_PAGES < nr
  · simp only [copy_huge_page, if_pos hgc]
    exact copy_gigantic_total o m dst src nr j hj
  · simp only [copy_huge_page, if_neg hgc]
    by_cases hmt : (if accel ≠ 0 ∨ sysctl = 1 then { m with mt := true } else m).mt = true
    · simp only [hmt, if_true, copy_page_multithread]
      by_cases hrc : o.mtRc = 0
      · simp [hrc, hj]
      · simp [hrc, seqCopy, copy_highpage, hj]
    · by_cases hdma : (if accel ≠ 0 ∨ sysctl = 1 then { m with mt := true } else m).dma = true
      · simp only [hmt, hdma, if_true, copy_page_dma]
        by_cases hrc : o.dmaRc = 0
        · simp [hrc, hj, hmt]
        · simp [hrc, seqCopy, copy_highpage, hj, hmt]
      · have hne : ((-EFAULT : Int), dst).1 ≠ 0 :=
          show (-EFAULT : Int) ≠ 0 from by decide
        simp [hmt, hdma, hne, seqCopy, copy_highpage, hj]

/-- C8: whenever a multithreaded or DMA offload copy is attempted and
returns a nonzero code, the transfer falls back to the plain sequential
per-member copy, so the destination ends up holding every member of the
source regardless of offload failures: this holds for copy_huge_page,
for the gigantic per-member loop, and for migrate_page_copy, and the
trace records that the fallback ran whenever the attempted offload
failed. -/
theorem content_copy_total (accel sysctl : Int) (o : CopyOracle)
    (m : MigrateMode) (dst src : Nat → Nat) (isHugetlb : Bool) (nr : Nat) :
    (∀ j, j < nr →
      (copy_huge_page accel sysctl o m dst src isHugetlb nr).1 j = src j) ∧
    (∀ j, j < nr → __copy_gigantic_page o m dst src nr j = src j) ∧
    (∀ hugeOrThp : Bool, ∀ j, j < (if hugeOrThp = true then nr else 1) →
      (migrate_page_copy accel sysctl o m dst src hugeOrThp isHugetlb nr).1 j
        = src j) ∧
    ((copy_huge_page accel sysctl o m dst src isHugetlb nr).2.giganticPath = false →
      ((copy_huge_page accel sysctl o m dst src isHugetlb nr).2.mtAttempted = true →
        o.mtRc ≠ 0 →
        (copy_huge_page accel sysctl o m dst src isHugetlb nr).2.fallbackUsed = true) ∧
      ((copy_huge_page accel sysctl o m dst src isHugetlb nr).2.dmaAttempted = true →
        o.dmaRc ≠ 0 →
        (copy_huge_page accel sysctl o m dst src isHugetlb nr).2.fallbackUsed = true)) := by
  refine ⟨copy_huge_page_total accel sysctl o m dst src isHugetlb nr,
    copy_gigantic_total o m dst src nr, ?_, ?_⟩
  · intro hugeOrThp j hj
    by_cases hh : hugeOrThp = true
    · rw [hh, if_pos rfl] at hj
      simp only [migrate_page_copy, hh, if_pos rfl]
      exact copy_huge_page_total accel sysctl o m dst src isHugetlb nr j hj
    · rw [if_neg hh] at hj
      have hj0 : j = 0 := by omega
      subst hj0
      simp only [migrate_page_copy, hh]
      by_cases hdma : m.dma = true
      · simp only [hdma, if_true, copy_page_dma]
        by_cases hrc : o.dmaRc = 0
        · simp [hrc]
        · simp [hrc, seqCopy, copy_highpage]
      · by_cases hmt : m.mt = true
        · simp only [hdma, hmt, copy_page_multithread]
          by_cases hrc : o.mtRc = 0
          · simp [hrc, hdma]
          · simp [hrc, seqCopy, copy_highpage, hdma]
        · have hne : ((-EFAULT : Int), dst).1 ≠ 0 :=
            show (-EFAULT : Int) ≠ 0 from by decide
          simp [hdma, hmt, hne, seqCopy, copy_highpage]
  · intro hng
    by_cases hgc : isHugetlb = true ∧ MAX_ORDER_NR_PAGES < nr
    · have : (copy_huge_page accel sysctl o m dst src isHugetlb nr).2.giganticPath
          = true := by
        simp [copy_huge_page, hgc]
      rw [this] at hng
      exact absurd hng (by decide)
    · by_cases hacc : accel ≠ 0 ∨ sysctl = 1
      · constructor
        · intro _ hrc
          simp [copy_huge_page, hgc, hacc, copy_page_multithread, hrc]
        · intro hdma _
          have : (copy_huge_page accel sysctl o m dst src isHugetlb nr).2.dmaAttempted
              = false := by
            simp [copy_huge_page, hgc, hacc, copy_page_multithread]
          rw [this] at hdma
          exact absurd hdma (by decide)
      · constructor
        · intro hmt hrc
          have hm : m.mt = true := by
            simpa [copy_huge_page, hgc, hacc] using hmt
          simp [copy_huge_page, hgc, hacc, hm, copy_page_multithread, hrc]
        · intro hdma hrc
          have hm : m.mt = false ∧ m.dma = true := by
            simpa [copy_huge_page, hgc, hacc] using hdma
          simp [copy_huge_page, hgc, hacc, hm.1, hm.2, copy_page_dma, hrc]

/-- C8 witness: with an all-failing offload oracle a concrete two-member
huge copy still ends with both members equal to the source. -/
theorem content_copy_total_witness :
    (0 : Nat) < 2 ∧
    (copy_huge_page 1 0 oracleAllFail syncMode dstContent srcContent false 2).1 0
      = srcContent 0 ∧
    (copy_huge_page 1 0 oracleAllFail syncMode dstContent srcContent false 2).1 1
      = srcContent 1 ∧
    (copy_huge_page 1 0 oracleAllFail syncMode dstContent srcContent false 2).2.fallbackUsed
      = true := by
  have h := content_copy_total 1 0 oracleAllFail syncMode dstContent
    srcContent false 2
  exact ⟨by decide, h.1 0 (by decide), h.1 1 (by decide), rfl⟩

/-- C10 corrected (counterexample): a gigantic hugetlbfs copy takes the
early __copy_gigantic_page path before the acceleration logic, so even
with accel_page_copy = 1 the multithreaded path is never enabled and the
copy proceeds without it, refuting the claim for such huge copies. -/
theorem accel_gigantic_counterexample :
    (1 : Int) ≠ 0 ∧
    syncMode.mt = false ∧ syncMode.dma = false ∧
    (copy_huge_page 1 0 oracleAllOk syncMode dstContent srcContent true 2048).2.giganticPath
      = true ∧
    (copy_huge_page 1 0 oracleAllOk syncMode dstContent srcContent true 2048).2.mtAttempted
      = false ∧
    (copy_huge_page 1 0 oracleAllOk syncMode dstContent srcContent true 2048).2.fallbackUsed
      = true :=
  ⟨by decide, rfl, rfl, rfl, rfl, rfl⟩

/-- C10 amended: for every non-gigantic huge/THP copy (a hugetlbfs page
with more members than MAX_ORDER_NR_PAGES instead takes the early
gigantic path with no acceleration logic), copy_huge_page forcibly
attempts the multithreaded path whenever accel_page_copy is nonzero or
the RPDAA sysctl equals 1, even when the mode carries neither the MT nor
the DMA bit; only when both globals are off and the mode carries no
MT/DMA bit does the copy go directly to the sequential path. -/
theorem accel_forced_mt (accel sysctl : Int) (o : CopyOracle)
    (m : MigrateMode) (dst src : Nat → Nat) (isHugetlb : Bool) (nr : Nat)
    (hng : ¬(isHugetlb = true ∧ MAX_ORDER_NR_PAGES < nr)) :
    ((accel ≠ 0 ∨ sysctl = 1) →
      (copy_huge_page accel sysctl o m dst src isHugetlb nr).2.mtAttempted = true) ∧
    (accel = 0 → sysctl ≠ 1 → m.mt = false → m.dma = false →
      (copy_huge_page accel sysctl o m dst src isHugetlb nr).2.forcedMT = false ∧
      (copy_huge_page accel sysctl o m dst src isHugetlb nr).2.mtAttempted = false ∧
      (copy_huge_page accel sysctl o m dst src isHugetlb nr).2.dmaAttempted = false ∧
      (copy_huge_page accel sysctl o m dst src isHugetlb nr).2.fallbackUsed = true) := by
  constructor
  · intro hacc
    simp [copy_huge_page, hng, hacc]
  · intro ha hs hm hd
    have hno : ¬(accel ≠ 0 ∨ sysctl = 1) := by
      rintro (h | h)
      · exact h ha
      · exact hs h
    have hne : ((-EFAULT : Int), dst).1 ≠ 0 :=
      show (-EFAULT : Int) ≠ 0 from by decide
    simp [copy_huge_page, hng, hno, hm, hd, hne]

/-- C10 amended witness: a concrete non-gigantic THP copy with
accel_page_copy = 1 attempts the multithreaded path although the mode
asks for neither MT nor DMA, and with both globals off the same copy goes
directly to the sequential path. -/
theorem accel_forced_mt_witness :
    ¬(false = true ∧ MAX_ORDER_NR_PAGES < 512) ∧
    (copy_huge_page 1 0 oracleAllOk syncMode dstContent srcContent false 512).2.mtAttempted
      = true ∧
    (copy_huge_page 0 0 oracleAllOk syncMode dstContent srcContent false 512).2.mtAttempted
      = false ∧
    (copy_huge_page 0 0 oracleAllOk syncMode dstContent srcContent false 512).2.fallbackUsed
      = true := by
  have hng : ¬(false = true ∧ MAX_ORDER_NR_PAGES < 512) := by decide
  have h1 := (accel_forced_mt 1 0 oracleAllOk syncMode dstContent srcContent
    false 512 hng).1 (Or.inl (by decide))
  have h2 := (accel_forced_mt 0 0 oracleAllOk syncMode dstContent srcContent
    false 512 hng).2 rfl (by decide) rfl rfl
  exact ⟨hng, h1, h2.2.1, h2.2.2.2⟩

/-- Helper: compound pages always fail the migration re-validation. -/
theorem compound_check_false (p : VPage) (h : p.isCompound = true) :
    migrate_vma_check_page p = false := by
  simp [migrate_vma_check_page, h]

/-- Helper: validCount on a cons. -/
theorem validCount_cons (e : SrcEntry) (es : List SrcEntry) :
    validCount (e :: es)
      = (if e.page.isSome = true then 1 else 0) + validCount es := by
  by_cases h : e.page.isSome = true
  · simp [validCount, List.filter_cons, h, Nat.add_comm]
  · simp [validCount, List.filter_cons, h]

/-- Helper: compoundCount on a cons. -/
theorem compoundCount_cons (e : SrcEntry) (es : List SrcEntry) :
    compoundCount (e :: es)
      = (match e.page with
         | some p => if p.isCompound = true then 1 else 0
         | none => 0) + compoundCount es := by
  cases hpage : e.page with
  | none => simp [compoundCount, List.filter_cons, hpage]
  | some p =>
    by_cases hc : p.isCompound = true
    · simp [compoundCount, List.filter_cons, hpage, hc, Nat.add_comm]
    · simp [compoundCount, List.filter_cons, hpage, hc]

/-- Helper: compound slots are a subset of the page-bearing slots. -/
theorem compoundCount_le_validCount (l : List SrcEntry) :
    compoundCount l ≤ validCount l := by
  induction l with
  | nil => simp [compoundCount, validCount]
  | cons e es ih =>
    rw [compoundCount_cons, validCount_cons]
    cases hpage : e.page with
    | none => simpa [hpage] using ih
    | some p =>
      have hm : (match some p with
          | some q => if q.isCompound = true then 1 else 0
          | none => 0) ≤ 1 := by
        by_cases hc : p.isCompound = true <;> simp [hc]
      have hs : (if (some p : Option VPage).isSome = true then 1 else 0)
          = 1 := by simp
      omega

/-- Helper: with no page-bearing slots every slot has an empty page. -/
theorem validCount_zero_no_page (l : List SrcEntry)
    (h : validCount l = 0) : ∀ e ∈ l, e.page.isSome = false := by
  intro e he
  by_contra hcon
  have hs : e.page.isSome = true := by
    cases hv : e.page.isSome
    · exact absurd hv hcon
    · rfl
  have hmem : e ∈ l.filter (fun x => decide (x.page.isSome = true)) :=
    List.mem_filter.mpr ⟨he, by simp [hs]⟩
  have : 0 < validCount l := by
    unfold validCount
    exact List.length_pos.mpr (List.ne_nil_of_mem hmem)
  omega

/-- Helper: the main loop of migrate_vma_prepare leaves no compound page
eligible and decrements the collected counter at least once per compound
slot, provided the counter covers the page-bearing slots (true after
collect) and all collected pages start out eligible. -/
theorem prepLoop_spec : ∀ (es : List SrcEntry) (cpages restore : Nat),
    validCount es ≤ cpages →
    (∀ e ∈ es, e.page.isSome = true → e.migrate = true) →
    (∀ e ∈ (prepLoop es cpages restore).1, ∀ p, e.page = some p →
      p.isCompound = true → e.migrate = false) ∧
    (prepLoop es cpages restore).2.1 + compoundCount es ≤ cpages := by
  intro es
  induction es with
  | nil =>
    intro cpages restore _ _
    constructor
    · intro e he
      simp [prepLoop] at he
    · simp [prepLoop, compoundCount]
  | cons e es ih =>
    intro cpages restore hv h2
    have h2s : ∀ x ∈ es, x.page.isSome = true → x.migrate = true :=
      fun x hx => h2 x (List.mem_cons_of_mem _ hx)
    by_cases hc0 : cpages = 0
    · subst hc0
      have hv0 : validCount (e :: es) = 0 := by omega
      have hnone := validCount_zero_no_page (e :: es) hv0
      have he0 : prepLoop (e :: es) 0 restore = (e :: es, 0, restore) := by
        simp [prepLoop]
      rw [he0]
      constructor
      · intro x hx p hp _
        have := hnone x hx
        rw [hp] at this
        simp at this
      · show 0 + compoundCount (e :: es) ≤ 0
        have := compoundCount_le_validCount (e :: es)
        omega
    · cases hpage : e.page with
      | none =>
        have hv' : validCount es ≤ cpages := by
          rw [validCount_cons, hpage] at hv
          simpa using hv
        obtain ⟨i1, i2⟩ := ih cpages restore hv' h2s
        have he : prepLoop (e :: es) cpages restore
            = ((e :: (prepLoop es cpages restore).1),
               (prepLoop es cpages restore).2) := by
          simp [prepLoop, hc0, hpage]
        rw [he]
        constructor
        · intro x hx p hp hcomp
          rcases List.mem_cons.mp hx with rfl | hx
          · rw [hpage] at hp
            exact absurd hp (by simp)
          · exact i1 x hx p hp hcomp
        · rw [compoundCount_cons, hpage]
          simpa using i2
      | some p =>
        have hvs : e.page.isSome = true := by simp [hpage]
        have hv2 : validCount es + 1 ≤ cpages := by
          rw [validCount_cons] at hv
          simp [hvs] at hv
          omega
        have hccons : compoundCount (e :: es)
            ≤ compoundCount es + 1 := by
          rw [compoundCount_cons, hpage]
          by_cases hcp : p.isCompound = true
          · simp [hcp]
            omega
          · simp [hcp]
        by_cases hlock : e.locked = false ∧ p.trylockOk = false
        · obtain ⟨i1, i2⟩ := ih (cpages - 1) restore (by omega) h2s
          have he : prepLoop (e :: es) cpages restore
              = (zeroEntry :: (prepLoop es (cpages - 1) restore).1,
                 (prepLoop es (cpages - 1) restore).2) := by
            simp [prepLoop, hc0, hpage, hlock]
          rw [he]
          constructor
          · intro x hx q hq hcomp
            rcases List.mem_cons.mp hx with rfl | hx
            · exact absurd hq (by simp [zeroEntry])
            · exact i1 x hx q hq hcomp
          · show (prepLoop es (cpages - 1) restore).2.1
              + compoundCount (e :: es) ≤ cpages
            omega
        · by_cases hiso : p.zoneDevice = false ∧ p.isolateOk = false
          · by_cases hloc : e.locked = true
            · obtain ⟨i1, i2⟩ := ih (cpages - 1) (restore + 1) (by omega) h2s
              have he : prepLoop (e :: es) cpages restore
                  = ({ e with locked := true, migrate := false }
                      :: (prepLoop es (cpages - 1) (restore + 1)).1,
                     (prepLoop es (cpages - 1) (restore + 1)).2) := by
                simp [prepLoop, hc0, hpage, hlock, hiso, hloc]
              rw [he]
              constructor
              · intro x hx q hq hcomp
                rcases List.mem_cons.mp hx with rfl | hx
                · rfl
                · exact i1 x hx q hq hcomp
              · show (prepLoop es (cpages - 1) (restore + 1)).2.1
                  + compoundCount (e :: es) ≤ cpages
                omega
            · obtain ⟨i1, i2⟩ := ih (cpages - 1) restore (by omega) h2s
              have he : prepLoop (e :: es) cpages restore
                  = (zeroEntry :: (prepLoop es (cpages - 1) restore).1,
                     (prepLoop es (cpages - 1) restore).2) := by
                simp [prepLoop, hc0, hpage, hlock, hiso, hloc]
              rw [he]
              constructor
              · intro x hx q hq hcomp
                rcases List.mem_cons.mp hx with rfl | hx
                · exact absurd hq (by simp [zeroEntry])
                · exact i1 x hx q hq hcomp
              · show (prepLoop es (cpages - 1) restore).2.1
                  + compoundCount (e :: es) ≤ cpages
                omega
          · by_cases hchk : migrate_vma_check_page p = false
            · by_cases hloc : e.locked = true
              · obtain ⟨i1, i2⟩ := ih (cpages - 1) (restore + 1) (by omega) h2s
                have he : prepLoop (e :: es) cpages restore
                    = ({ e with locked := true, migrate := false }
                        :: (prepLoop es (cpages - 1) (restore + 1)).1,
                       (prepLoop es (cpages - 1) (restore + 1)).2) := by
                  simp [prepLoop, hc0, hpage, hlock, hiso, hchk, hloc]
                rw [he]
                constructor
                · intro x hx q hq hcomp
                  rcases List.mem_cons.mp hx with rfl | hx
                  · rfl
                  · exact i1 x hx q hq hcomp
                · show (prepLoop es (cpages - 1) (restore + 1)).2.1
                    + compoundCount (e :: es) ≤ cpages
                  omega
              · obtain ⟨i1, i2⟩ := ih (cpages - 1) restore (by omega) h2s
                have he : prepLoop (e :: es) cpages restore
                    = (zeroEntry :: (prepLoop es (cpages - 1) restore).1,
                       (prepLoop es (cpages - 1) restore).2) := by
                  simp [prepLoop, hc0, hpage, hlock, hiso, hchk, hloc]
                rw [he]
                constructor
                · intro x hx q hq hcomp
                  rcases List.mem_cons.mp hx with rfl | hx
                  · exact absurd hq (by simp [zeroEntry])
                  · exact i1 x hx q hq hcomp
                · show (prepLoop es (cpages - 1) restore).2.1
                    + compoundCount (e :: es) ≤ cpages
                  omega
            · have hchkt : migrate_vma_check_page p = true := by
                cases hcv : migrate_vma_check_page p
                · exact absurd hcv hchk
                · rfl
              have hcomp : p.isCompound = false := by
                by_contra hcon
                have : p.isCompound = true := by
                  cases hcc : p.isCompound
                  · exact absurd hcc hcon
                  · rfl
                rw [compound_check_false p this] at hchkt
                exact absurd hchkt (by decide)
              obtain ⟨i1, i2⟩ := ih cpages restore (by omega) h2s
              have he : prepLoop (e :: es) cpages restore
                  = ({ e with locked := true }
                      :: (prepLoop es cpages restore).1,
                     (prepLoop es cpages restore).2) := by
                simp [prepLoop, hc0, hpage, hlock, hiso, hchk]
              rw [he]
              constructor
              · intro x hx q hq hcomp2
                rcases List.mem_cons.mp hx with rfl | hx
                · have : q = p := by
                    have : e.page = some q := hq
                    rw [hpage] at this
                    exact (Option.some_inj.mp this).symm
                  rw [this] at hcomp2
                  rw [hcomp2] at hcomp
                  exact absurd hcomp (by decide)
                · exact i1 x hx q hq hcomp2
              · rw [compoundCount_cons, hpage]
                show (prepLoop es cpages restore).2.1
                  + ((if p.isCompound = true then 1 else 0) + compoundCount es)
                  ≤ cpages
                rw [if_neg (by simp [hcomp])]
                omega

/-- Helper: the restore loop only clears slots, so a property holding for
every slot and for the cleared slot is preserved. -/
theorem restoreLoop_preserve (P : SrcEntry → Prop) (hz : P zeroEntry) :
    ∀ (es : List SrcEntry) (r : Nat), (∀ e ∈ es, P e) →
    ∀ e ∈ restoreLoop es r, P e := by
  intro es
  induction es with
  | nil =>
    intro r _ e he
    simp [restoreLoop] at he
  | cons a l ih =>
    intro r h e he
    have ha : P a := h a (List.mem_cons_self _ _)
    have hl : ∀ x ∈ l, P x := fun x hx => h x (List.mem_cons_of_mem _ hx)
    by_cases hr : r = 0
    · rw [show restoreLoop (a :: l) r = a :: l by simp [restoreLoop, hr]] at he
      exact h e he
    · cases hpage : a.page with
      | none =>
        rw [show restoreLoop (a :: l) r = a :: restoreLoop l r by
          simp [restoreLoop, hr, hpage]] at he
        rcases List.mem_cons.mp he with rfl | he
        · exact ha
        · exact ih r hl e he
      | some p =>
        by_cases hm : a.migrate = true
        · rw [show restoreLoop (a :: l) r = a :: restoreLoop l r by
            simp [restoreLoop, hr, hpage, hm]] at he
          rcases List.mem_cons.mp he with rfl | he
          · exact ha
          · exact ih r hl e he
        · rw [show restoreLoop (a :: l) r
              = zeroEntry :: restoreLoop l (r - 1) by
            simp [restoreLoop, hr, hpage, hm]] at he
          rcases List.mem_cons.mp he with rfl | he
          · exact hz
          · exact ih (r - 1) hl e he

/-- C9: a compound frame is never eligible to migrate in a device-memory
session: migrate_vma_check_page returns false for every compound page,
and after migrate_vma_prepare no slot holding a compound page has the
eligible bit, with the collected-pages counter decremented at least once
per compound slot; the hypotheses state the collect-phase postconditions
that the counter covers the page-bearing slots and that collected pages
start out eligible. -/
theorem vma_compound_never_eligible (src : List SrcEntry) (cpages : Nat)
    (h1 : validCount src ≤ cpages)
    (h2 : ∀ e ∈ src, e.page.isSome = true → e.migrate = true) :
    (∀ p : VPage, p.isCompound = true → migrate_vma_check_page p = false) ∧
    (∀ e ∈ (migrate_vma_prepare src cpages).1, ∀ p, e.page = some p →
      p.isCompound = true → e.migrate = false) ∧
    (migrate_vma_prepare src cpages).2 + compoundCount src ≤ cpages := by
  have hp := prepLoop_spec src cpages 0 h1 h2
  refine ⟨fun p h => compound_check_false p h, ?_, hp.2⟩
  intro e he
  have hz : ∀ q : VPage, zeroEntry.page = some q → q.isCompound = true →
      zeroEntry.migrate = false :=
    fun q hq _ => absurd hq (by simp [zeroEntry])
  exact restoreLoop_preserve
    (fun x => ∀ q, x.page = some q → q.isCompound = true → x.migrate = false)
    hz (prepLoop src cpages 0).1 (prepLoop src cpages 0).2.2 hp.1 e he

/-- C9 witness: on a concrete session holding a compound page and an
ordinary eligible page, prepare clears the compound slot entirely and
decrements the collected counter from 2 to 1. -/
theorem vma_compound_never_eligible_witness :
    validCount srcFix ≤ 2 ∧
    (∀ e ∈ srcFix, e.page.isSome = true → e.migrate = true) ∧
    migrate_vma_check_page compoundVPage = false ∧
    (∀ e ∈ (migrate_vma_prepare srcFix 2).1, ∀ p, e.page = some p →
      p.isCompound = true → e.migrate = false) ∧
    (migrate_vma_prepare srcFix 2).2 + compoundCount srcFix ≤ 2 ∧
    (migrate_vma_prepare srcFix 2).1.head? = some zeroEntry ∧
    (migrate_vma_prepare srcFix 2).2 = 1 := by
  have h1 : validCount srcFix ≤ 2 := by decide
  have h2 : ∀ e ∈ srcFix, e.page.isSome = true → e.migrate = true := by decide
  have h := vma_compound_never_eligible srcFix 2 h1 h2
  exact ⟨h1, h2, h.1 compoundVPage rfl, h.2.1, h.2.2, by decide, by decide⟩

end MigrateC
